import Mathlib

/-!
Verification of the wx-filehelper-api bridge: a shallow embedding of the
message store (`message_store.py`), the command processor (`processor.py`)
and the direct protocol engine (`direct_bot.py`), with theorems checking
the natural-language specification against the code.

Python strings are modelled as `String` (or `List Char` where character
level scanning matters); integer-keyed SQL rows use `Nat` row ids; Python
sets are `Finset String`; `collections.deque` ring buffers with a `maxlen`
are `List String` together with an explicit capacity.
-/

/-! ## Message store (`message_store.py`)

The `messages` table is modelled as a list of rows.  `id` is the
`INTEGER PRIMARY KEY AUTOINCREMENT` row id; rows of a real table have
pairwise distinct ids (hypotheses of the theorems state this where
needed). -/

structure StoredMessage where
  id : Nat
  msg_id : String
  type : String
  text : String
  is_mine : Bool
  timestamp : Nat
  file_name : Option String
  file_path : Option String
  file_size : Option Nat
  reply_to_id : Option String
deriving DecidableEq

namespace MessageStore

/-- The WHERE clause built by `MessageStore.get_updates`: `id > ?` always;
`type = ?` only when `msg_type` is truthy (Python: `if msg_type:`, so
`None` and `""` both skip the filter); `timestamp >= ?` only when `since`
is truthy (`None` and `0` both skip it). -/
def rowMatches (offset : Nat) (msg_type : Option String) (since : Option Nat)
    (m : StoredMessage) : Bool :=
  decide (offset < m.id)
    && (match msg_type with
        | none => true
        | some t => if t = "" then true else decide (m.type = t))
    && (match since with
        | none => true
        | some s => if s = 0 then true else decide (s ≤ m.timestamp))

/-- `MessageStore.get_updates(offset, limit, msg_type, since)`:
`SELECT * FROM messages WHERE <conds> ORDER BY id ASC LIMIT min(limit, 1000)`. -/
def get_updates (table : List StoredMessage) (offset limit : Nat)
    (msg_type : Option String) (since : Option Nat) : List StoredMessage :=
  (((table.filter (rowMatches offset msg_type since)).insertionSort
      (fun a b => a.id ≤ b.id)).take (min limit 1000))

end MessageStore

/-! ## Telegram-style update projection (`processor.py`, `CommandProcessor.get_updates`) -/

structure TgDocument where
  file_name : Option String
  file_path : Option String
  file_size : Option Nat
deriving DecidableEq

structure TgMessage where
  message_id : String
  date : Nat
  text : String
  type : String
  is_from_bot : Bool
  document : Option TgDocument
  reply_to_message_id : Option String
deriving DecidableEq

structure TgUpdate where
  update_id : Nat
  message : TgMessage
deriving DecidableEq

namespace CommandProcessor

/-- `CommandProcessor.get_updates(offset, limit)`: wraps the store query
(no type/since filters) into Telegram-shaped update dicts.  The
`document` sub-object is present only when `msg.file_name` is truthy. -/
def get_updates (table : List StoredMessage) (offset limit : Nat) : List TgUpdate :=
  (MessageStore.get_updates table offset limit none none).map (fun m =>
    { update_id := m.id
      message :=
        { message_id := m.msg_id
          date := m.timestamp
          text := m.text
          type := m.type
          is_from_bot := m.is_mine
          document :=
            match m.file_name with
            | none => none
            | some fn => if fn = "" then none else some ⟨m.file_name, m.file_path, m.file_size⟩
          reply_to_message_id := m.reply_to_id } })

end CommandProcessor

instance : IsTotal StoredMessage (fun a b => a.id ≤ b.id) :=
  ⟨fun a b => Nat.le_total a.id b.id⟩

instance : IsTrans StoredMessage (fun a b => a.id ≤ b.id) :=
  ⟨fun _ _ _ hab hbc => Nat.le_trans hab hbc⟩

lemma mem_get_updates_matches {table : List StoredMessage} {offset limit : Nat}
    {msg_type : Option String} {since : Option Nat} {m : StoredMessage}
    (h : m ∈ MessageStore.get_updates table offset limit msg_type since) :
    MessageStore.rowMatches offset msg_type since m = true := by
  unfold MessageStore.get_updates at h
  have h1 := List.take_subset _ _ h
  have h2 := (List.perm_insertionSort (fun a b => a.id ≤ b.id)
    (table.filter (MessageStore.rowMatches offset msg_type since))).mem_iff.mp h1
  exact List.of_mem_filter h2

lemma get_updates_ids_nodup {table : List StoredMessage} {offset limit : Nat}
    {msg_type : Option String} {since : Option Nat}
    (hids : (table.map (fun m => m.id)).Nodup) :
    ((MessageStore.get_updates table offset limit msg_type since).map
      (fun m => m.id)).Nodup := by
  unfold MessageStore.get_updates
  have hsub : List.Sublist (table.filter (MessageStore.rowMatches offset msg_type since))
      table := List.filter_sublist table
  have hfil : ((table.filter (MessageStore.rowMatches offset msg_type since)).map
      (fun m => m.id)).Nodup :=
    (List.Sublist.map (fun m : StoredMessage => m.id) hsub).nodup hids
  have hperm : List.Perm
      (((table.filter (MessageStore.rowMatches offset msg_type since)).insertionSort
        (fun a b => a.id ≤ b.id)).map (fun m => m.id))
      ((table.filter (MessageStore.rowMatches offset msg_type since)).map
        (fun m => m.id)) :=
    (List.perm_insertionSort _ _).map _
  exact (List.Sublist.map (fun m : StoredMessage => m.id)
    (List.take_sublist _ _)).nodup (hperm.nodup_iff.mpr hfil)

lemma get_updates_ids_sorted_le (table : List StoredMessage) (offset limit : Nat)
    (msg_type : Option String) (since : Option Nat) :
    ((MessageStore.get_updates table offset limit msg_type since).map
      (fun m => m.id)).Pairwise (· ≤ ·) := by
  unfold MessageStore.get_updates
  have hs : ((table.filter (MessageStore.rowMatches offset msg_type since)).insertionSort
      (fun a b => a.id ≤ b.id)).Pairwise (fun a b => a.id ≤ b.id) :=
    List.sorted_insertionSort _ _
  have ht := hs.sublist (List.take_sublist (min limit 1000) _)
  exact List.Pairwise.map (fun m : StoredMessage => m.id) (fun _ _ h => h) ht

/-- C1: every row returned by `get_updates(offset, limit, msg_type, since)`
has row id strictly greater than `offset`, matches the kind filter (when a
non-empty kind is supplied) and the since filter; the result is sorted
strictly ascending by row id; and at most `min(limit, 1000)` rows are
returned.  The Telegram-style wrapper `CommandProcessor.get_updates`
inherits the same bounds on its `update_id`s. -/
theorem message_store_get_updates_spec (table : List StoredMessage)
    (offset limit : Nat) (msg_type : Option String) (since : Option Nat)
    (hids : (table.map (fun m => m.id)).Nodup) :
    (∀ m ∈ MessageStore.get_updates table offset limit msg_type since,
        offset < m.id
        ∧ (∀ t, msg_type = some t → t ≠ "" → m.type = t)
        ∧ (∀ s, since = some s → s ≤ m.timestamp))
    ∧ ((MessageStore.get_updates table offset limit msg_type since).map
        (fun m => m.id)).Pairwise (· < ·)
    ∧ (MessageStore.get_updates table offset limit msg_type since).length
        ≤ min limit 1000
    ∧ (∀ u ∈ CommandProcessor.get_updates table offset limit, offset < u.update_id)
    ∧ (CommandProcessor.get_updates table offset limit).length ≤ min limit 1000 := by
  refine ⟨?_, ?_, ?_, ?_, ?_⟩
  · intro m hm
    have hmatch := mem_get_updates_matches hm
    simp only [MessageStore.rowMatches, Bool.and_eq_true, decide_eq_true_eq] at hmatch
    obtain ⟨⟨hoff, hkind⟩, hsince⟩ := hmatch
    refine ⟨hoff, ?_, ?_⟩
    · intro t ht hne
      rw [ht] at hkind
      simp only [if_neg hne, decide_eq_true_eq] at hkind
      exact hkind
    · intro s hs
      rw [hs] at hsince
      by_cases h0 : s = 0
      · subst h0; exact Nat.zero_le _
      · simp only [if_neg h0, decide_eq_true_eq] at hsince
        exact hsince
  · exact ((get_updates_ids_sorted_le table offset limit msg_type since).and
      (get_updates_ids_nodup hids)).imp fun h => lt_of_le_of_ne h.1 h.2
  · unfold MessageStore.get_updates
    rw [List.length_take]
    omega
  · intro u hu
    simp only [CommandProcessor.get_updates, List.mem_map] at hu
    obtain ⟨m, hm, rfl⟩ := hu
    have hmatch := mem_get_updates_matches hm
    simp only [MessageStore.rowMatches, Bool.and_eq_true, decide_eq_true_eq] at hmatch
    exact hmatch.1.1
  · unfold CommandProcessor.get_updates
    rw [List.length_map]
    unfold MessageStore.get_updates
    rw [List.length_take]
    omega

/-- Witness for C1 at a concrete two-row table. -/
theorem message_store_get_updates_spec_witness :
    (([⟨1, "a", "text", "hi", false, 10, none, none, none, none⟩,
       ⟨2, "b", "image", "[Image]", false, 20, none, none, none, none⟩] :
        List StoredMessage).map (fun m => m.id)).Nodup
    ∧ (∀ m ∈ MessageStore.get_updates
          [⟨1, "a", "text", "hi", false, 10, none, none, none, none⟩,
           ⟨2, "b", "image", "[Image]", false, 20, none, none, none, none⟩]
          1 5 (some "image") (some 15),
        1 < m.id
        ∧ (∀ t, (some "image" : Option String) = some t → t ≠ "" → m.type = t)
        ∧ (∀ s, (some 15 : Option Nat) = some s → s ≤ m.timestamp)) := by
  constructor
  · decide
  · exact (message_store_get_updates_spec
      [⟨1, "a", "text", "hi", false, 10, none, none, none, none⟩,
       ⟨2, "b", "image", "[Image]", false, 20, none, none, none, none⟩]
      1 5 (some "image") (some 15) (by decide)).1


/-! ## Bounded caches (`direct_bot.py`, `_add_to_limited_set` / `_add_to_limited_dict`)

A `deque(maxlen=cap)` is a `List String` plus the capacity `cap`:
appending to a full deque drops the oldest element.  The companion
Python `set` (respectively the key set of the raw-by-id `dict`) is a
`Finset String`. -/

/-- `deque.append` with `maxlen = cap`: the oldest entries are dropped
so that at most `cap` entries remain. -/
def pushCap (cap : Nat) (order : List String) (v : String) : List String :=
  let l := order ++ [v]
  l.drop (l.length - cap)

/-- `WeChatHelperBot._add_to_limited_set(s, order, value)`: early return when
the value is already present; otherwise add it to the set, append it to the
order deque, and when the set outgrows `order.maxlen + 100` intersect the
set back to the deque's contents. -/
def addToLimitedSet (s : Finset String) (order : List String) (cap : Nat)
    (v : String) : Finset String × List String :=
  if v ∈ s then (s, order)
  else
    let s1 := insert v s
    let order1 := pushCap cap order v
    if cap + 100 < s1.card then (s1.filter (fun x => x ∈ order1), order1)
    else (s1, order1)

/-- `WeChatHelperBot._add_to_limited_dict(d, order, key, value)`, projected to
the key set of the dict: the key is (re)assigned unconditionally, appended to
the order deque, and when the dict outgrows `order.maxlen + 100` the keys not
in the deque are deleted. -/
def addToLimitedDict (d : Finset String) (order : List String) (cap : Nat)
    (k : String) : Finset String × List String :=
  let d1 := insert k d
  let order1 := pushCap cap order k
  if cap + 100 < d1.card then (d1.filter (fun x => x ∈ order1), order1)
  else (d1, order1)

/-- One step of inserting into the seen/self-sent cache, also recording (in
the third component) the ghost list of values that were actually appended to
the deque. -/
def addAllSetStep (cap : Nat) (acc : Finset String × List String × List String)
    (v : String) : Finset String × List String × List String :=
  if v ∈ acc.1 then acc
  else
    let r := addToLimitedSet acc.1 acc.2.1 cap v
    (r.1, r.2, acc.2.2 ++ [v])

/-- Folding `_add_to_limited_set` over a sequence of inserted values starting
from the empty cache. -/
def addAllSet (cap : Nat) (vs : List String) :
    Finset String × List String × List String :=
  vs.foldl (addAllSetStep cap) (∅, [], [])

/-- One step of inserting a key into the raw-by-id cache, with the ghost list
of appended keys. -/
def addAllDictStep (cap : Nat) (acc : Finset String × List String × List String)
    (k : String) : Finset String × List String × List String :=
  let r := addToLimitedDict acc.1 acc.2.1 cap k
  (r.1, r.2, acc.2.2 ++ [k])

/-- Folding `_add_to_limited_dict` key insertions from the empty cache. -/
def addAllDict (cap : Nat) (ks : List String) :
    Finset String × List String × List String :=
  ks.foldl (addAllDictStep cap) (∅, [], [])

/-! ## Protocol engine state (`direct_bot.py`, `WeChatHelperBot`) -/

/-- The part of the engine state the verified operations touch: the four
authentication tokens, the login bookkeeping, and the self-sent-ids cache
(`_send_msg_ids` with its order deque, `maxlen = 200`). -/
structure Engine where
  entry_host : String
  device_id : String
  uuid : String
  skey : String
  sid : String
  uin : String
  pass_ticket : String
  user_name : String
  is_logged_in : Bool
  last_login_code : Nat
  last_login_message : String
  send_msg_ids : Finset String
  send_msg_ids_order : List String
deriving DecidableEq

/-- `WeChatHelperBot._has_auth`: all four tokens non-empty (Python truthiness
of `skey and sid and uin and pass_ticket`). -/
def hasAuth (e : Engine) : Bool :=
  decide (e.skey ≠ "" ∧ e.sid ≠ "" ∧ e.uin ≠ "" ∧ e.pass_ticket ≠ "")

/-- `WeChatHelperBot.check_login_status(poll=False)`: with auth present it
reports logged in (refreshing the status message from the initial states);
without auth and without polling it reports logged out (asking for a QR
when no login UUID is pending).  No network request is made on this path. -/
def checkLoginStatusNoPoll (e : Engine) : Engine × Bool :=
  if hasAuth e then
    ({ e with
        is_logged_in := true
        last_login_code := 200
        last_login_message :=
          if e.last_login_message ∈ ["init", "need_qr", "qr_expired"] then
            "logged_in_cached"
          else e.last_login_message }, true)
  else
    ({ e with
        is_logged_in := false
        last_login_message :=
          if e.uuid = "" then "need_qr" else e.last_login_message }, false)

/-- The JSON body of a successful `webwxsendmsg` / `webwxsendappmsg` response
(after `_post_message` has already checked `BaseResponse.Ret == 0`): only the
`MsgID` field matters here (`str(data.get("MsgID", ""))`). -/
structure PostData where
  MsgID : String
deriving DecidableEq

/-- `WeChatHelperBot.send_text(message)`.  `net` is the outcome of
`_post_message`: `none` models a transport error or `BaseResponse.Ret != 0`.
Returns the new engine state, the boolean result, and whether any network
request was issued. -/
def sendText (e : Engine) (message : String) (net : Option PostData) :
    Engine × Bool × Bool :=
  if message = "" then (e, false, false)
  else
    let c := checkLoginStatusNoPoll e
    if c.2 = false then (c.1, false, false)
    else
      match net with
      | none => (c.1, false, true)
      | some data =>
        if data.MsgID = "" then (c.1, true, true)
        else
          let r := addToLimitedSet c.1.send_msg_ids c.1.send_msg_ids_order 200 data.MsgID
          ({ c.1 with send_msg_ids := r.1, send_msg_ids_order := r.2 }, true, true)

/-- `WeChatHelperBot.send_file(file_path)`.  `pathExists` models
`path.exists()`, `size` is `path.stat().st_size`, `mediaId` is the outcome of
`_webwxuploadmedia` (empty string on failure), and `net` the outcome of the
final `_post_message`.  The third component records whether any network
request (upload or send) was issued: the login check, the existence check and
the 25 MiB size check all happen before any network traffic. -/
def sendFile (e : Engine) (pathExists : Bool) (size : Nat) (mediaId : String)
    (net : Option PostData) : Engine × Bool × Bool :=
  let c := checkLoginStatusNoPoll e
  if c.2 = false then (c.1, false, false)
  else if pathExists = false then (c.1, false, false)
  else if 25 * 1024 * 1024 < size then (c.1, false, false)
  else if mediaId = "" then (c.1, false, true)
  else
    match net with
    | none => (c.1, false, true)
    | some data =>
      if data.MsgID = "" then (c.1, true, true)
      else
        let r := addToLimitedSet c.1.send_msg_ids c.1.send_msg_ids_order 200 data.MsgID
        ({ c.1 with send_msg_ids := r.1, send_msg_ids_order := r.2 }, true, true)

/-- The JSON session file (`state.json`) as read by `_load_session`: any of
the keys may be missing. -/
structure SessionFile where
  entry_host : Option String
  device_id : Option String
  uuid : Option String
  skey : Option String
  sid : Option String
  uin : Option String
  pass_ticket : Option String
  user_name : Option String
deriving DecidableEq

/-- `WeChatHelperBot._load_session`: each field is taken from the state file
with `state.get(key, default)` — a partial file loads a partial token set. -/
def loadSession (e : Engine) (f : SessionFile) : Engine :=
  { e with
      entry_host := f.entry_host.getD e.entry_host
      device_id := f.device_id.getD e.device_id
      uuid := f.uuid.getD ""
      skey := f.skey.getD ""
      sid := f.sid.getD ""
      uin := f.uin.getD ""
      pass_ticket := f.pass_ticket.getD ""
      user_name := f.user_name.getD "" }

/-- The token-assignment phase of `WeChatHelperBot._complete_login`: the four
tokens extracted from the `webwxnewloginpage` XML (an absent tag extracts as
`""`) are assigned to the engine first; only afterwards does the code raise
`RuntimeError` when any of them is empty — the boolean result records whether
that check passed, but the assignments persist either way. -/
def completeLoginTokens (e : Engine) (skey sid uin pass_ticket : String) :
    Engine × Bool :=
  ({ e with skey := skey, sid := sid, uin := uin, pass_ticket := pass_ticket },
    decide (skey ≠ "" ∧ sid ≠ "" ∧ uin ≠ "" ∧ pass_ticket ≠ ""))

/-- The spec's session invariant: the four tokens are all present or all
absent. -/
def allOrNone (e : Engine) : Prop :=
  (e.skey ≠ "" ∧ e.sid ≠ "" ∧ e.uin ≠ "" ∧ e.pass_ticket ≠ "")
    ∨ (e.skey = "" ∧ e.sid = "" ∧ e.uin = "" ∧ e.pass_ticket = "")

instance (e : Engine) : Decidable (allOrNone e) := by
  unfold allOrNone
  infer_instance

/-- A freshly constructed engine: empty tokens, no uuid, not logged in. -/
def initialEngine : Engine :=
  { entry_host := "szfilehelper.weixin.qq.com"
    device_id := "123456789012345"
    uuid := ""
    skey := ""
    sid := ""
    uin := ""
    pass_ticket := ""
    user_name := ""
    is_logged_in := false
    last_login_code := 0
    last_login_message := "init"
    send_msg_ids := ∅
    send_msg_ids_order := [] }

/-! ## C8: bounded-cache invariants -/

lemma pushCap_length_le (cap : Nat) (order : List String) (v : String) :
    (pushCap cap order v).length ≤ cap := by
  simp only [pushCap, List.length_drop, List.length_append, List.length_cons,
    List.length_nil]
  omega

lemma pushCap_subset (cap : Nat) (order : List String) (v : String) :
    ∀ x ∈ pushCap cap order v, x ∈ order ++ [v] := by
  intro x hx
  exact List.drop_subset _ _ hx

lemma pushCap_ghost (cap : Nat) (order app : List String) (v : String)
    (h : order = app.drop (app.length - cap)) :
    pushCap cap order v = (app ++ [v]).drop ((app ++ [v]).length - cap) := by
  have hlen : order.length = app.length - (app.length - cap) := by
    rw [h, List.length_drop]
  have hdrop : order ++ [v] = (app ++ [v]).drop (app.length - cap) := by
    rw [h, List.drop_append_eq_append_drop]
    have h0 : app.length - cap - app.length = 0 := by omega
    rw [h0, List.drop_zero]
  show (order ++ [v]).drop ((order ++ [v]).length - cap) = _
  rw [hdrop, List.drop_drop]
  congr 1
  simp only [List.length_drop, List.length_append, List.length_cons, List.length_nil]
  omega

lemma addToLimitedSet_step (cap : Nat) (s : Finset String) (order : List String)
    (v : String) (hlen : order.length ≤ cap) (hcard : s.card ≤ cap + 100)
    (hmem : ∀ x ∈ order, x ∈ s) :
    (addToLimitedSet s order cap v).2.length ≤ cap
    ∧ (addToLimitedSet s order cap v).1.card ≤ cap + 100
    ∧ (∀ x ∈ (addToLimitedSet s order cap v).2, x ∈ (addToLimitedSet s order cap v).1)
    ∧ (v ∉ s → cap + 100 < (insert v s).card →
        (addToLimitedSet s order cap v).1 = (addToLimitedSet s order cap v).2.toFinset) := by
  by_cases hv : v ∈ s
  · simp only [addToLimitedSet, if_pos hv]
    exact ⟨hlen, hcard, hmem, fun hvn _ => absurd hv hvn⟩
  · have horder1 : ∀ x ∈ pushCap cap order v, x ∈ insert v s := by
      intro x hx
      rcases List.mem_append.mp (pushCap_subset cap order v x hx) with h | h
      · exact Finset.mem_insert_of_mem (hmem x h)
      · simp only [List.mem_singleton] at h
        subst h
        exact Finset.mem_insert_self _ _
    by_cases hp : cap + 100 < (insert v s).card
    · have hfe : (insert v s).filter (fun x => x ∈ pushCap cap order v)
          = (pushCap cap order v).toFinset := by
        ext x
        simp only [Finset.mem_filter, List.mem_toFinset]
        constructor
        · exact fun h => h.2
        · exact fun h => ⟨horder1 x h, h⟩
      simp only [addToLimitedSet, if_neg hv, if_pos hp]
      refine ⟨pushCap_length_le cap order v, ?_, ?_, fun _ _ => hfe⟩
      · rw [hfe]
        calc (pushCap cap order v).toFinset.card
            ≤ (pushCap cap order v).length := List.toFinset_card_le _
          _ ≤ cap := pushCap_length_le cap order v
          _ ≤ cap + 100 := Nat.le_add_right _ _
      · intro x hx
        rw [hfe]
        exact List.mem_toFinset.mpr hx
    · simp only [addToLimitedSet, if_neg hv, if_neg hp]
      exact ⟨pushCap_length_le cap order v, by omega, horder1,
        fun _ hlt => absurd hlt hp⟩

lemma addToLimitedDict_step (cap : Nat) (d : Finset String) (order : List String)
    (k : String) (hlen : order.length ≤ cap) (hcard : d.card ≤ cap + 100)
    (hmem : ∀ x ∈ order, x ∈ d) :
    (addToLimitedDict d order cap k).2.length ≤ cap
    ∧ (addToLimitedDict d order cap k).1.card ≤ cap + 100
    ∧ (∀ x ∈ (addToLimitedDict d order cap k).2, x ∈ (addToLimitedDict d order cap k).1)
    ∧ (cap + 100 < (insert k d).card →
        (addToLimitedDict d order cap k).1 = (addToLimitedDict d order cap k).2.toFinset) := by
  have horder1 : ∀ x ∈ pushCap cap order k, x ∈ insert k d := by
    intro x hx
    rcases List.mem_append.mp (pushCap_subset cap order k x hx) with h | h
    · exact Finset.mem_insert_of_mem (hmem x h)
    · simp only [List.mem_singleton] at h
      subst h
      exact Finset.mem_insert_self _ _
  by_cases hp : cap + 100 < (insert k d).card
  · have hfe : (insert k d).filter (fun x => x ∈ pushCap cap order k)
        = (pushCap cap order k).toFinset := by
      ext x
      simp only [Finset.mem_filter, List.mem_toFinset]
      constructor
      · exact fun h => h.2
      · exact fun h => ⟨horder1 x h, h⟩
    simp only [addToLimitedDict, if_pos hp]
    refine ⟨pushCap_length_le cap order k, ?_, ?_, fun _ => hfe⟩
    · rw [hfe]
      calc (pushCap cap order k).toFinset.card
          ≤ (pushCap cap order k).length := List.toFinset_card_le _
        _ ≤ cap := pushCap_length_le cap order k
        _ ≤ cap + 100 := Nat.le_add_right _ _
    · intro x hx
      rw [hfe]
      exact List.mem_toFinset.mpr hx
  · simp only [addToLimitedDict, if_neg hp]
    have hc1 : (insert k d).card ≤ cap + 100 := by omega
    exact ⟨pushCap_length_le cap order k, hc1, horder1, fun hlt => absurd hlt hp⟩

/-- The cache invariant carried through a fold: deque within capacity, set at
most `cap + 100`, every deque entry still in the set, and the deque equal to
the FIFO tail of the ghost append sequence. -/
def CacheInv (cap : Nat) (acc : Finset String × List String × List String) : Prop :=
  acc.2.1.length ≤ cap ∧ acc.1.card ≤ cap + 100 ∧ (∀ x ∈ acc.2.1, x ∈ acc.1)
    ∧ acc.2.1 = acc.2.2.drop (acc.2.2.length - cap)

lemma addAllSetStep_inv (cap : Nat) (acc : Finset String × List String × List String)
    (v : String) (h : CacheInv cap acc) : CacheInv cap (addAllSetStep cap acc v) := by
  obtain ⟨h1, h2, h3, h4⟩ := h
  by_cases hv : v ∈ acc.1
  · simpa only [addAllSetStep, if_pos hv] using ⟨h1, h2, h3, h4⟩
  · have hs := addToLimitedSet_step cap acc.1 acc.2.1 v h1 h2 h3
    have hghost : (addToLimitedSet acc.1 acc.2.1 cap v).2
        = (acc.2.2 ++ [v]).drop ((acc.2.2 ++ [v]).length - cap) := by
      have hord : (addToLimitedSet acc.1 acc.2.1 cap v).2 = pushCap cap acc.2.1 v := by
        simp only [addToLimitedSet, if_neg hv]
        by_cases hp : cap + 100 < (insert v acc.1).card
        · simp only [if_pos hp]
        · simp only [if_neg hp]
      rw [hord]
      exact pushCap_ghost cap acc.2.1 acc.2.2 v h4
    simp only [addAllSetStep, if_neg hv]
    exact ⟨hs.1, hs.2.1, hs.2.2.1, hghost⟩

lemma addAllDictStep_inv (cap : Nat) (acc : Finset String × List String × List String)
    (k : String) (h : CacheInv cap acc) : CacheInv cap (addAllDictStep cap acc k) := by
  obtain ⟨h1, h2, h3, h4⟩ := h
  have hs := addToLimitedDict_step cap acc.1 acc.2.1 k h1 h2 h3
  have hghost : (addToLimitedDict acc.1 acc.2.1 cap k).2
      = (acc.2.2 ++ [k]).drop ((acc.2.2 ++ [k]).length - cap) := by
    have hord : (addToLimitedDict acc.1 acc.2.1 cap k).2 = pushCap cap acc.2.1 k := by
      by_cases hp : cap + 100 < (insert k acc.1).card
      · simp only [addToLimitedDict, if_pos hp]
      · simp only [addToLimitedDict, if_neg hp]
    rw [hord]
    exact pushCap_ghost cap acc.2.1 acc.2.2 k h4
  simp only [addAllDictStep]
  exact ⟨hs.1, hs.2.1, hs.2.2.1, hghost⟩

lemma foldl_cache_inv {α : Type} (step : (Finset String × List String × List String)
      → α → (Finset String × List String × List String)) (cap : Nat)
    (hstep : ∀ acc a, CacheInv cap acc → CacheInv cap (step acc a)) :
    ∀ (l : List α) (acc : Finset String × List String × List String),
      CacheInv cap acc → CacheInv cap (l.foldl step acc) := by
  intro l
  induction l with
  | nil => intro acc h; exact h
  | cons a l ih =>
    intro acc h
    exact ih (step acc a) (hstep acc a h)

lemma cacheInv_empty (cap : Nat) : CacheInv cap (∅, [], []) := by
  refine ⟨Nat.zero_le _, by simp, ?_, by simp⟩
  intro x hx
  cases hx

/-- C8: for every insertion sequence into the bounded caches, the companion
deque never exceeds its capacity and holds exactly the FIFO tail of the
appended values (eviction is strictly FIFO); whenever an insertion makes the
set (or dict) exceed `capacity + 100` it is intersected back to exactly the
deque's contents; hence the set (or dict) never exceeds `capacity + 100`. -/
theorem bounded_cache_spec (cap : Nat) :
    (∀ (s : Finset String) (order : List String) (v : String),
      order.length ≤ cap → s.card ≤ cap + 100 → (∀ x ∈ order, x ∈ s) →
        (addToLimitedSet s order cap v).2.length ≤ cap
        ∧ (addToLimitedSet s order cap v).1.card ≤ cap + 100
        ∧ (v ∉ s → cap + 100 < (insert v s).card →
            (addToLimitedSet s order cap v).1 = (addToLimitedSet s order cap v).2.toFinset))
    ∧ (∀ (d : Finset String) (order : List String) (k : String),
      order.length ≤ cap → d.card ≤ cap + 100 → (∀ x ∈ order, x ∈ d) →
        (addToLimitedDict d order cap k).2.length ≤ cap
        ∧ (addToLimitedDict d order cap k).1.card ≤ cap + 100
        ∧ (cap + 100 < (insert k d).card →
            (addToLimitedDict d order cap k).1 = (addToLimitedDict d order cap k).2.toFinset))
    ∧ (∀ vs : List String,
        (addAllSet cap vs).2.1.length ≤ cap
        ∧ (addAllSet cap vs).1.card ≤ cap + 100
        ∧ (addAllSet cap vs).2.1
            = (addAllSet cap vs).2.2.drop ((addAllSet cap vs).2.2.length - cap))
    ∧ (∀ ks : List String,
        (addAllDict cap ks).2.1.length ≤ cap
        ∧ (addAllDict cap ks).1.card ≤ cap + 100
        ∧ (addAllDict cap ks).2.1
            = (addAllDict cap ks).2.2.drop ((addAllDict cap ks).2.2.length - cap)) := by
  refine ⟨?_, ?_, ?_, ?_⟩
  · intro s order v h1 h2 h3
    have h := addToLimitedSet_step cap s order v h1 h2 h3
    exact ⟨h.1, h.2.1, h.2.2.2⟩
  · intro d order k h1 h2 h3
    have h := addToLimitedDict_step cap d order k h1 h2 h3
    exact ⟨h.1, h.2.1, h.2.2.2⟩
  · intro vs
    have h := foldl_cache_inv (addAllSetStep cap) cap
      (fun acc a => addAllSetStep_inv cap acc a) vs (∅, [], []) (cacheInv_empty cap)
    exact ⟨h.1, h.2.1, h.2.2.2⟩
  · intro ks
    have h := foldl_cache_inv (addAllDictStep cap) cap
      (fun acc a => addAllDictStep_inv cap acc a) ks (∅, [], []) (cacheInv_empty cap)
    exact ⟨h.1, h.2.1, h.2.2.2⟩

/-- Witness for C8 at capacity 2 and a concrete overflowing state. -/
theorem bounded_cache_spec_witness :
    (["a", "b"] : List String).length ≤ 2
    ∧ ({"a", "b"} : Finset String).card ≤ 2 + 100
    ∧ (∀ x ∈ (["a", "b"] : List String), x ∈ ({"a", "b"} : Finset String))
    ∧ (addToLimitedSet {"a", "b"} ["a", "b"] 2 "c").2.length ≤ 2 := by
  refine ⟨by decide, by decide, by decide, ?_⟩
  exact ((bounded_cache_spec 2).1 {"a", "b"} ["a", "b"] "c"
    (by decide) (by decide) (by decide)).1

/-! ## C2, C7, C10: authentication gating and send semantics -/

lemma checkLoginStatusNoPoll_send_ids (e : Engine) :
    (checkLoginStatusNoPoll e).1.send_msg_ids = e.send_msg_ids
    ∧ (checkLoginStatusNoPoll e).1.send_msg_ids_order = e.send_msg_ids_order := by
  by_cases h : hasAuth e = true
  · simp [checkLoginStatusNoPoll, h]
  · simp [checkLoginStatusNoPoll, h]

/-- C2 (counterexample): the all-or-none token invariant fails on the code.
Loading a session file that carries only `skey` leaves the engine with a
partial token set, and `_complete_login` assigns whatever tokens the XML
yielded before raising on the missing ones. -/
theorem auth_all_or_none_cex :
    ¬ allOrNone (loadSession initialEngine
        ⟨none, none, none, some "a", none, none, none, none⟩)
    ∧ ¬ allOrNone ((completeLoginTokens initialEngine "k" "s" "" "").1)
    ∧ ((completeLoginTokens initialEngine "k" "s" "" "").2 = false) := by
  refine ⟨by decide, by decide, by decide⟩

/-- C2 (amended): the engine counts as authenticated iff all four tokens are
non-empty, and whenever any token is missing every auth-guarded operation
treats the engine as not logged in: `check_login_status(poll=False)` reports
logged out and `send_text` / `send_file` return false.  (The all-or-none part
of the original claim fails: partially populated token sets are reachable via
`_load_session` and `_complete_login`, but they always behave as
unauthenticated.) -/
theorem auth_gate_spec (e : Engine) :
    (hasAuth e = true ↔ (e.skey ≠ "" ∧ e.sid ≠ "" ∧ e.uin ≠ "" ∧ e.pass_ticket ≠ ""))
    ∧ (e.skey = "" ∨ e.sid = "" ∨ e.uin = "" ∨ e.pass_ticket = "" →
        (checkLoginStatusNoPoll e).2 = false
        ∧ (checkLoginStatusNoPoll e).1.is_logged_in = false
        ∧ (∀ msg net, (sendText e msg net).2.1 = false)
        ∧ (∀ pe sz mid net, (sendFile e pe sz mid net).2.1 = false)) := by
  refine ⟨by simp [hasAuth], ?_⟩
  intro hmiss
  have hfa : ¬ (hasAuth e = true) := by
    simp only [hasAuth, decide_eq_true_eq]
    intro h
    rcases hmiss with h1 | h1 | h1 | h1
    · exact h.1 h1
    · exact h.2.1 h1
    · exact h.2.2.1 h1
    · exact h.2.2.2 h1
  have hc2 : (checkLoginStatusNoPoll e).2 = false := by
    simp only [checkLoginStatusNoPoll, if_neg hfa]
  have hcl : (checkLoginStatusNoPoll e).1.is_logged_in = false := by
    simp only [checkLoginStatusNoPoll, if_neg hfa]
  refine ⟨hc2, hcl, ?_, ?_⟩
  · intro msg net
    by_cases hm : msg = ""
    · simp [sendText, hm]
    · simp [sendText, hm, hc2]
  · intro pe sz mid net
    simp [sendFile, hc2]

/-- Witness for C2's amended theorem at the freshly constructed engine. -/
theorem auth_gate_spec_witness :
    (initialEngine.skey = "" ∨ initialEngine.sid = "" ∨ initialEngine.uin = ""
      ∨ initialEngine.pass_ticket = "")
    ∧ ((checkLoginStatusNoPoll initialEngine).2 = false
      ∧ (checkLoginStatusNoPoll initialEngine).1.is_logged_in = false
      ∧ (∀ msg net, (sendText initialEngine msg net).2.1 = false)
      ∧ (∀ pe sz mid net, (sendFile initialEngine pe sz mid net).2.1 = false)) :=
  ⟨Or.inl rfl, (auth_gate_spec initialEngine).2 (Or.inl rfl)⟩

/-- An engine with a full (concrete) token set. -/
def authedEngine : Engine :=
  { initialEngine with skey := "k", sid := "s", uin := "1", pass_ticket := "p" }

/-- C7 (counterexample): at exactly `25 * 1024 * 1024` bytes the size guard
(`file_size > 25 * 1024 * 1024`) does not fire: `send_file` proceeds to the
upload and send phase (network is used and the call succeeds), contradicting
the claim that files of at least 25 MiB are rejected without network
traffic. -/
theorem send_file_boundary_cex :
    (sendFile authedEngine true (25 * 1024 * 1024) "media1" (some ⟨"77"⟩)).2
      = (true, true) := by
  decide

/-- C7 (amended): for every file strictly larger than 25 MiB, `send_file`
returns false before issuing any network request (no upload, no send), and
the self-sent cache is left unchanged. -/
theorem send_file_size_reject (e : Engine) (sz : Nat) (mediaId : String)
    (net : Option PostData) (hsz : 25 * 1024 * 1024 < sz) :
    sendFile e true sz mediaId net = ((checkLoginStatusNoPoll e).1, false, false)
    ∧ (sendFile e true sz mediaId net).1.send_msg_ids = e.send_msg_ids := by
  have hval : sendFile e true sz mediaId net
      = ((checkLoginStatusNoPoll e).1, false, false) := by
    by_cases hc : (checkLoginStatusNoPoll e).2 = false
    · simp [sendFile, hc]
    · simp [sendFile, hc, hsz]
  refine ⟨hval, ?_⟩
  rw [hval]
  exact (checkLoginStatusNoPoll_send_ids e).1

/-- Witness for C7's amended theorem one byte above the threshold. -/
theorem send_file_size_reject_witness :
    25 * 1024 * 1024 < 25 * 1024 * 1024 + 1
    ∧ sendFile authedEngine true (25 * 1024 * 1024 + 1) "m" (some ⟨"9"⟩)
        = ((checkLoginStatusNoPoll authedEngine).1, false, false) :=
  ⟨by omega, (send_file_size_reject authedEngine (25 * 1024 * 1024 + 1) "m"
    (some ⟨"9"⟩) (by omega)).1⟩

/-- C10: `send_text("")` returns false with no network request and the engine
state completely unchanged; whenever `send_text` or `send_file` returns
false the self-sent set is unchanged; and the self-sent set gains an id only
when the (successful) upstream response carried a non-empty `MsgID`. -/
theorem send_failure_spec :
    (∀ (e : Engine) (net : Option PostData), sendText e "" net = (e, false, false))
    ∧ (∀ (e : Engine) (msg : String) (net : Option PostData),
        (sendText e msg net).2.1 = false →
          (sendText e msg net).1.send_msg_ids = e.send_msg_ids
          ∧ (sendText e msg net).1.send_msg_ids_order = e.send_msg_ids_order)
    ∧ (∀ (e : Engine) (msg : String) (net : Option PostData),
        (sendText e msg net).1.send_msg_ids ≠ e.send_msg_ids →
          ∃ d, net = some d ∧ d.MsgID ≠ "" ∧ (sendText e msg net).2.1 = true)
    ∧ (∀ (e : Engine) (pe : Bool) (sz : Nat) (mid : String) (net : Option PostData),
        (sendFile e pe sz mid net).2.1 = false →
          (sendFile e pe sz mid net).1.send_msg_ids = e.send_msg_ids)
    ∧ (∀ (e : Engine) (pe : Bool) (sz : Nat) (mid : String) (net : Option PostData),
        (sendFile e pe sz mid net).1.send_msg_ids ≠ e.send_msg_ids →
          ∃ d, net = some d ∧ d.MsgID ≠ "" ∧ (sendFile e pe sz mid net).2.1 = true) := by
  have hids := checkLoginStatusNoPoll_send_ids
  refine ⟨?_, ?_, ?_, ?_, ?_⟩
  · intro e net
    simp [sendText]
  · intro e msg net hfail
    by_cases hm : msg = ""
    · simp [sendText, hm]
    · by_cases hc : (checkLoginStatusNoPoll e).2 = false
      · simp only [sendText, if_neg hm, if_pos hc]
        exact hids e
      · cases net with
        | none =>
          simp only [sendText, if_neg hm, if_neg hc]
          exact hids e
        | some d =>
          by_cases hd : d.MsgID = ""
          · simp only [sendText, if_neg hm, if_neg hc, if_pos hd]
            exact hids e
          · exfalso
            simp only [sendText, if_neg hm, if_neg hc, if_neg hd] at hfail
            cases hfail
  · intro e msg net hchange
    by_cases hm : msg = ""
    · exfalso
      apply hchange
      simp [sendText, hm]
    · by_cases hc : (checkLoginStatusNoPoll e).2 = false
      · exfalso
        apply hchange
        simp only [sendText, if_neg hm, if_pos hc]
        exact (hids e).1
      · cases net with
        | none =>
          exfalso
          apply hchange
          simp only [sendText, if_neg hm, if_neg hc]
          exact (hids e).1
        | some d =>
          by_cases hd : d.MsgID = ""
          · exfalso
            apply hchange
            simp only [sendText, if_neg hm, if_neg hc, if_pos hd]
            exact (hids e).1
          · exact ⟨d, rfl, hd, by simp only [sendText, if_neg hm, if_neg hc, if_neg hd]⟩
  · intro e pe sz mid net hfail
    by_cases hc : (checkLoginStatusNoPoll e).2 = false
    · simp only [sendFile, if_pos hc]
      exact (hids e).1
    · by_cases hpe : pe = false
      · simp only [sendFile, if_neg hc, if_pos hpe]
        exact (hids e).1
      · by_cases hsz : 25 * 1024 * 1024 < sz
        · simp only [sendFile, if_neg hc, if_neg hpe, if_pos hsz]
          exact (hids e).1
        · by_cases hmid : mid = ""
          · simp only [sendFile, if_neg hc, if_neg hpe, if_neg hsz, if_pos hmid]
            exact (hids e).1
          · cases net with
            | none =>
              simp only [sendFile, if_neg hc, if_neg hpe, if_neg hsz, if_neg hmid]
              exact (hids e).1
            | some d =>
              by_cases hd : d.MsgID = ""
              · simp only [sendFile, if_neg hc, if_neg hpe, if_neg hsz, if_neg hmid,
                  if_pos hd]
                exact (hids e).1
              · exfalso
                simp only [sendFile, if_neg hc, if_neg hpe, if_neg hsz, if_neg hmid,
                  if_neg hd] at hfail
                cases hfail
  · intro e pe sz mid net hchange
    by_cases hc : (checkLoginStatusNoPoll e).2 = false
    · exfalso
      apply hchange
      simp only [sendFile, if_pos hc]
      exact (hids e).1
    · by_cases hpe : pe = false
      · exfalso
        apply hchange
        simp only [sendFile, if_neg hc, if_pos hpe]
        exact (hids e).1
      · by_cases hsz : 25 * 1024 * 1024 < sz
        · exfalso
          apply hchange
          simp only [sendFile, if_neg hc, if_neg hpe, if_pos hsz]
          exact (hids e).1
        · by_cases hmid : mid = ""
          · exfalso
            apply hchange
            simp only [sendFile, if_neg hc, if_neg hpe, if_neg hsz, if_pos hmid]
            exact (hids e).1
          · cases net with
            | none =>
              exfalso
              apply hchange
              simp only [sendFile, if_neg hc, if_neg hpe, if_neg hsz, if_neg hmid]
              exact (hids e).1
            | some d =>
              by_cases hd : d.MsgID = ""
              · exfalso
                apply hchange
                simp only [sendFile, if_neg hc, if_neg hpe, if_neg hsz, if_neg hmid,
                  if_pos hd]
                exact (hids e).1
              · exact ⟨d, rfl, hd, by simp only [sendFile, if_neg hc, if_neg hpe,
                  if_neg hsz, if_neg hmid, if_neg hd]⟩

/-- Witness for C10 exercising the hypothesis-bearing conjuncts at concrete
inputs. -/
theorem send_failure_spec_witness :
    ((sendText authedEngine "hello" none).2.1 = false
      ∧ (sendText authedEngine "hello" none).1.send_msg_ids = authedEngine.send_msg_ids)
    ∧ ((sendFile authedEngine false 10 "m" none).2.1 = false
      ∧ (sendFile authedEngine false 10 "m" none).1.send_msg_ids
          = authedEngine.send_msg_ids) := by
  refine ⟨⟨by decide, ?_⟩, ⟨by decide, ?_⟩⟩
  · exact ((send_failure_spec).2.1 authedEngine "hello" none (by decide)).1
  · exact (send_failure_spec).2.2.2.1 authedEngine false 10 "m" none (by decide)

/-! ## C6: scheduler (`processor.py`, `_scheduler_loop` / `run_task_now`) -/

structure ScheduledTask where
  task_id : String
  time_hm : String
  command_text : String
  enabled : Bool
  description : String
  last_run_date : Option String
  created_at : String
deriving DecidableEq

/-- One visit of `_scheduler_loop` to one task at wall-clock time
(`today`, `hm`): the task runs iff it is enabled, its `time_hm` equals the
current minute, and its `last_run_date` is not today; on a run
`last_run_date` is immediately set to today. -/
def schedulerStep (today hm : String) (t : ScheduledTask) : ScheduledTask × Bool :=
  if t.enabled = true ∧ t.time_hm = hm ∧ t.last_run_date ≠ some today then
    ({ t with last_run_date := some today }, true)
  else (t, false)

/-- Accumulate one tick into `(task state, number of runs so far)`. -/
def schedulerTick (today hm : String) (acc : ScheduledTask × Nat) : ScheduledTask × Nat :=
  let r := schedulerStep today hm acc.1
  (r.1, acc.2 + (if r.2 then 1 else 0))

/-- A whole sequence of scheduler ticks within one calendar day `today`
(`hms` lists the `HH:MM` value observed at each tick). -/
def schedulerRun (today : String) (hms : List String) (t : ScheduledTask) :
    ScheduledTask × Nat :=
  hms.foldl (fun acc hm => schedulerTick today hm acc) (t, 0)

/-- `CommandProcessor.run_task_now(task_id)`: look the task up and execute it
(the returned task is the one handed to `_run_task`), bypassing the
enabled/time/last-run gating and leaving the task list — in particular every
`last_run_date` — unchanged. -/
def run_task_now (tasks : List (String × ScheduledTask)) (id : String) :
    List (String × ScheduledTask) × Option ScheduledTask :=
  match tasks.lookup id with
  | none => (tasks, none)
  | some t => (tasks, some t)

lemma schedulerFold_blocked (today : String) : ∀ (hms : List String)
    (t : ScheduledTask) (n : Nat), t.last_run_date = some today →
    hms.foldl (fun acc hm => schedulerTick today hm acc) (t, n) = (t, n) := by
  intro hms
  induction hms with
  | nil => intro t n _; rfl
  | cons hm hms ih =>
    intro t n h
    have hstep : schedulerStep today hm t = (t, false) := by
      have : ¬(t.enabled = true ∧ t.time_hm = hm ∧ t.last_run_date ≠ some today) := by
        intro hc
        exact hc.2.2 h
      simp only [schedulerStep, if_neg this]
    simp only [List.foldl_cons, schedulerTick, hstep, if_neg Bool.false_ne_true,
      Nat.add_zero]
    exact ih t n h

lemma schedulerFold_count (today : String) : ∀ (hms : List String)
    (t : ScheduledTask) (n : Nat),
    (hms.foldl (fun acc hm => schedulerTick today hm acc) (t, n)).2 ≤ n + 1 := by
  intro hms
  induction hms with
  | nil => intro t n; exact Nat.le_succ n
  | cons hm hms ih =>
    intro t n
    by_cases hfire : t.enabled = true ∧ t.time_hm = hm ∧ t.last_run_date ≠ some today
    · have hstep : schedulerStep today hm t = ({ t with last_run_date := some today }, true) := by
        simp only [schedulerStep, if_pos hfire]
      have htick : schedulerTick today hm (t, n)
          = ({ t with last_run_date := some today }, n + 1) := by
        simp [schedulerTick, hstep]
      rw [List.foldl_cons]
      show (List.foldl (fun acc hm => schedulerTick today hm acc)
        (schedulerTick today hm (t, n)) hms).2 ≤ n + 1
      rw [htick, schedulerFold_blocked today hms _ (n + 1) rfl]
    · have hstep : schedulerStep today hm t = (t, false) := by
        simp only [schedulerStep, if_neg hfire]
      have htick : schedulerTick today hm (t, n) = (t, n) := by
        simp [schedulerTick, hstep]
      rw [List.foldl_cons]
      show (List.foldl (fun acc hm => schedulerTick today hm acc)
        (schedulerTick today hm (t, n)) hms).2 ≤ n + 1
      rw [htick]
      exact ih t n

/-- C6: a scheduler step runs a task exactly under the spec's gating
condition and immediately stamps `last_run_date`; across any sequence of
ticks within one calendar day an enabled task runs at most once; and a
manual `run_task_now` executes the task regardless of the gating while
leaving the stored tasks (hence `last_run_date`) unchanged. -/
theorem scheduler_at_most_once_spec :
    (∀ (today hm : String) (t : ScheduledTask),
        ((schedulerStep today hm t).2 = true
          ↔ (t.enabled = true ∧ t.time_hm = hm ∧ t.last_run_date ≠ some today))
        ∧ ((schedulerStep today hm t).2 = true →
            (schedulerStep today hm t).1.last_run_date = some today))
    ∧ (∀ (today : String) (hms : List String) (t : ScheduledTask),
        (schedulerRun today hms t).2 ≤ 1)
    ∧ (∀ (tasks : List (String × ScheduledTask)) (id : String) (t : ScheduledTask),
        tasks.lookup id = some t → run_task_now tasks id = (tasks, some t)) := by
  refine ⟨?_, ?_, ?_⟩
  · intro today hm t
    constructor
    · constructor
      · intro h
        by_cases hc : t.enabled = true ∧ t.time_hm = hm ∧ t.last_run_date ≠ some today
        · exact hc
        · exfalso
          simp only [schedulerStep, if_neg hc] at h
          cases h
      · intro hc
        simp only [schedulerStep, if_pos hc]
    · intro h
      by_cases hc : t.enabled = true ∧ t.time_hm = hm ∧ t.last_run_date ≠ some today
      · simp only [schedulerStep, if_pos hc]
      · exfalso
        simp only [schedulerStep, if_neg hc] at h
        cases h
  · intro today hms t
    exact schedulerFold_count today hms t 0
  · intro tasks id t h
    simp only [run_task_now, h]

/-- Witness for C6's `run_task_now` conjunct at a concrete task list. -/
theorem scheduler_at_most_once_spec_witness :
    ([("t1", ⟨"t1", "09:00", "/ping", false, "", none, ""⟩)]
        : List (String × ScheduledTask)).lookup "t1"
      = some ⟨"t1", "09:00", "/ping", false, "", none, ""⟩
    ∧ run_task_now [("t1", ⟨"t1", "09:00", "/ping", false, "", none, ""⟩)] "t1"
      = ([("t1", ⟨"t1", "09:00", "/ping", false, "", none, ""⟩)],
          some ⟨"t1", "09:00", "/ping", false, "", none, ""⟩) :=
  ⟨by decide, scheduler_at_most_once_spec.2.2 _ "t1" _ (by decide)⟩

/-! ## C9: `CommandProcessor.process` ping fast path -/

/-- ASCII lowering, as applied by `str.lower()` to the ASCII inputs at
hand. -/
def asciiLower (c : Char) : Char :=
  if 65 ≤ c.toNat ∧ c.toNat ≤ 90 then Char.ofNat (c.toNat + 32) else c

def pyLower (s : String) : String :=
  String.mk (s.data.map asciiLower)

/-- Python default `str.strip()` whitespace. -/
def isPyWs (c : Char) : Bool :=
  c.toNat = 32 ∨ c.toNat = 9 ∨ c.toNat = 10 ∨ c.toNat = 13 ∨ c.toNat = 11 ∨ c.toNat = 12

def pyStrip (s : String) : String :=
  String.mk (((s.data.dropWhile isPyWs).reverse.dropWhile isPyWs).reverse)

/-- The dispatcher's inbound message, as consumed by
`CommandProcessor.process`. -/
structure InMsg where
  id : String
  text : String
deriving DecidableEq

/-- Observable steps taken by `process`: the best-effort persist to the
message store, the webhook push, and the hand-off to `_dispatch_text`
(which runs message handlers, commands, and the chat fallback). -/
inductive PEvent where
  | save
  | webhook
  | dispatch
deriving DecidableEq

namespace CommandProcessor

/-- `CommandProcessor.process(msg)`: persist (skipped for an empty id), push
the webhook (when configured), then return `None` for empty text, `"Pong!"`
for text whose strip+lower equals `#ping#`, and otherwise hand the stripped
text to `_dispatch_text`. -/
def process (dispatch : String → InMsg → Option String) (webhookConfigured : Bool)
    (msg : InMsg) : List PEvent × Option String :=
  let text := pyStrip msg.text
  let ev0 := (if msg.id = "" then [] else [PEvent.save])
    ++ (if webhookConfigured then [PEvent.webhook] else [])
  if text = "" then (ev0, none)
  else if pyLower text = "#ping#" then (ev0, some "Pong!")
  else (ev0 ++ [PEvent.dispatch], dispatch text msg)

end CommandProcessor

/-- C9: an inbound message whose trimmed text case-insensitively equals
`#ping#` is persisted and webhook-pushed, then answered `"Pong!"` without
any hand-off to the dispatch chain (no message handler, command, or chat
fallback runs). -/
theorem ping_fast_path_spec (dispatch : String → InMsg → Option String)
    (msg : InMsg) (hping : pyLower (pyStrip msg.text) = "#ping#")
    (hid : msg.id ≠ "") :
    CommandProcessor.process dispatch true msg
      = ([PEvent.save, PEvent.webhook], some "Pong!") := by
  have hne : ¬ (pyStrip msg.text = "") := by
    intro h
    rw [h] at hping
    exact absurd hping (by decide)
  simp only [CommandProcessor.process, if_neg hid, if_neg hne, if_pos hping]
  simp

/-- Witness for C9 on a concrete mixed-case padded ping. -/
theorem ping_fast_path_spec_witness :
    pyLower (pyStrip "  #PiNg#  ") = "#ping#"
    ∧ ("m1" : String) ≠ ""
    ∧ CommandProcessor.process (fun _ _ => none) true ⟨"m1", "  #PiNg#  "⟩
        = ([PEvent.save, PEvent.webhook], some "Pong!") :=
  ⟨by decide, by decide,
    ping_fast_path_spec (fun _ _ => none) ⟨"m1", "  #PiNg#  "⟩ (by decide) (by decide)⟩

/-! ## C5: message normalization (`direct_bot.py`, `_normalize_messages`) -/

/-- `WeChatHelperBot.to_user_name`: the canonical robot id. -/
def toUserNameConst : String := "filehelper"

/-- One upstream `AddMsgList` record, restricted to the fields
`_normalize_messages` reads.  `msgId` is `str(item.get("MsgId", ""))`. -/
structure RawItem where
  msgId : String
  fromUser : String
  toUser : String
  content : String
  msgType : Option Int
  appMsgType : Option Int
  fileName : Option String
deriving DecidableEq

/-- A normalized inbound message (`{"id", "type", "text", "file_name"?,
"is_mine"}`). -/
structure NormalizedMsg where
  id : String
  type : String
  text : String
  file_name : Option String
  is_mine : Bool
deriving DecidableEq

/-- Python `a or b` on an optional string: falsy (`None` or `""`) falls back
to the default. -/
def pyOr (o : Option String) (d : String) : String :=
  match o with
  | none => d
  | some s => if s = "" then d else s

/-- The per-record filter and normalization table of `_normalize_messages`
(applied to records that survived the id/dedup skips): records whose sender
and recipient both differ from the robot id are discarded; `MsgType 1` is
text with HTML-unescaped content, `MsgType 3` is an image placeholder,
`MsgType 49` with `AppMsgType 6` is a file placeholder, everything else is
dropped.  `unescape` stands for the standard library's `html.unescape`. -/
def normalizeOne (unescape : String → String) (item : RawItem) : Option NormalizedMsg :=
  if item.fromUser ≠ toUserNameConst ∧ item.toUser ≠ toUserNameConst then none
  else if item.msgType = some 1 then
    some ⟨item.msgId, "text", unescape item.content, none,
      decide (item.fromUser ≠ toUserNameConst)⟩
  else if item.msgType = some 3 then
    some ⟨item.msgId, "image", "[Image]",
      some (pyOr item.fileName ("img_" ++ item.msgId ++ ".jpg")),
      decide (item.fromUser ≠ toUserNameConst)⟩
  else if item.msgType = some 49 ∧ item.appMsgType = some 6 then
    some ⟨item.msgId, "file",
      "[File: " ++ pyOr item.fileName ("file_" ++ item.msgId) ++ "]",
      some (pyOr item.fileName ("file_" ++ item.msgId)),
      decide (item.fromUser ≠ toUserNameConst)⟩
  else none

/-- The engine-side caches `_normalize_messages` consults and updates. -/
structure SyncCaches where
  seen : Finset String
  seenOrder : List String
  send : Finset String
  rawKeys : Finset String
  rawOrder : List String
deriving DecidableEq

/-- `WeChatHelperBot._normalize_messages(add_msg_list)`: skip records with an
empty id or an already seen/self-sent id; skip records addressed neither from
nor to the robot; otherwise record the id in the seen set (capacity 5000) and
the raw map (capacity 500) and emit the normalized record when the type
table yields one. -/
def normalizeMessages (unescape : String → String) :
    SyncCaches → List RawItem → SyncCaches × List NormalizedMsg
  | c, [] => (c, [])
  | c, item :: rest =>
    if item.msgId = "" then normalizeMessages unescape c rest
    else if item.msgId ∈ c.seen ∨ item.msgId ∈ c.send then
      normalizeMessages unescape c rest
    else if item.fromUser ≠ toUserNameConst ∧ item.toUser ≠ toUserNameConst then
      normalizeMessages unescape c rest
    else
      let rs := addToLimitedSet c.seen c.seenOrder 5000 item.msgId
      let rd := addToLimitedDict c.rawKeys c.rawOrder 500 item.msgId
      let r := normalizeMessages unescape ⟨rs.1, rs.2, c.send, rd.1, rd.2⟩ rest
      match normalizeOne unescape item with
      | some n => (r.1, n :: r.2)
      | none => (r.1, r.2)

lemma normalizeMessages_sublist (unescape : String → String) :
    ∀ (items : List RawItem) (c : SyncCaches),
      List.Sublist (normalizeMessages unescape c items).2
        (items.filterMap (normalizeOne unescape)) := by
  intro items
  induction items with
  | nil => intro c; exact List.Sublist.refl _
  | cons item rest ih =>
    intro c
    have hext : List.Sublist (rest.filterMap (normalizeOne unescape))
        ((item :: rest).filterMap (normalizeOne unescape)) := by
      rw [List.filterMap_cons]
      cases normalizeOne unescape item with
      | none => exact List.Sublist.refl _
      | some n => exact List.sublist_cons_of_sublist n (List.Sublist.refl _)
    by_cases h1 : item.msgId = ""
    · simp only [normalizeMessages, if_pos h1]
      exact (ih c).trans hext
    · by_cases h2 : item.msgId ∈ c.seen ∨ item.msgId ∈ c.send
      · simp only [normalizeMessages, if_neg h1, if_pos h2]
        exact (ih c).trans hext
      · by_cases h3 : item.fromUser ≠ toUserNameConst ∧ item.toUser ≠ toUserNameConst
        · simp only [normalizeMessages, if_neg h1, if_neg h2, if_pos h3]
          exact (ih c).trans hext
        · simp only [normalizeMessages, if_neg h1, if_neg h2, if_neg h3]
          rw [List.filterMap_cons]
          cases hnorm : normalizeOne unescape item with
          | none => exact ih _
          | some n => exact List.Sublist.cons₂ n (ih _)

/-- C5: the normalization table.  Records addressed neither from nor to
`filehelper` are discarded; `MsgType 1` yields a text message with
HTML-unescaped content; `MsgType 3` yields an image with `[Image]`;
`MsgType 49` with `AppMsgType 6` yields a file with `[File: <name>]`; every
other `MsgType` yields nothing.  The batch output of `_normalize_messages`
consists only of per-record results of this table. -/
theorem normalize_messages_spec (unescape : String → String) :
    (∀ item : RawItem, item.fromUser ≠ "filehelper" → item.toUser ≠ "filehelper" →
        normalizeOne unescape item = none)
    ∧ (∀ item : RawItem, (item.fromUser = "filehelper" ∨ item.toUser = "filehelper") →
        (item.msgType = some 1 →
          normalizeOne unescape item
            = some ⟨item.msgId, "text", unescape item.content, none,
                decide (item.fromUser ≠ "filehelper")⟩)
        ∧ (item.msgType = some 3 →
          normalizeOne unescape item
            = some ⟨item.msgId, "image", "[Image]",
                some (pyOr item.fileName ("img_" ++ item.msgId ++ ".jpg")),
                decide (item.fromUser ≠ "filehelper")⟩)
        ∧ (item.msgType = some 49 → item.appMsgType = some 6 →
          normalizeOne unescape item
            = some ⟨item.msgId, "file",
                "[File: " ++ pyOr item.fileName ("file_" ++ item.msgId) ++ "]",
                some (pyOr item.fileName ("file_" ++ item.msgId)),
                decide (item.fromUser ≠ "filehelper")⟩)
        ∧ (∀ t : Int, item.msgType = some t → t ≠ 1 → t ≠ 3 →
            ¬(t = 49 ∧ item.appMsgType = some 6) → normalizeOne unescape item = none)
        ∧ (item.msgType = none → normalizeOne unescape item = none))
    ∧ (∀ (c : SyncCaches) (items : List RawItem),
        List.Sublist (normalizeMessages unescape c items).2
          (items.filterMap (normalizeOne unescape))) := by
  refine ⟨?_, ?_, fun c items => normalizeMessages_sublist unescape items c⟩
  · intro item h1 h2
    have hd : item.fromUser ≠ toUserNameConst ∧ item.toUser ≠ toUserNameConst := ⟨h1, h2⟩
    simp only [normalizeOne, if_pos hd]
  · intro item haddr
    have hd : ¬(item.fromUser ≠ "filehelper" ∧ item.toUser ≠ "filehelper") := by
      rcases haddr with h | h
      · intro hc; exact hc.1 h
      · intro hc; exact hc.2 h
    refine ⟨?_, ?_, ?_, ?_, ?_⟩
    · intro ht
      simp only [normalizeOne, toUserNameConst, if_neg hd, if_pos ht]
    · intro ht
      have h1 : ¬ (item.msgType = some 1) := by rw [ht]; decide
      simp only [normalizeOne, toUserNameConst, if_neg hd, if_neg h1, if_pos ht]
    · intro ht ha
      have h1 : ¬ (item.msgType = some 1) := by rw [ht]; decide
      have h3 : ¬ (item.msgType = some 3) := by rw [ht]; decide
      have h49 : item.msgType = some 49 ∧ item.appMsgType = some 6 := ⟨ht, ha⟩
      simp only [normalizeOne, toUserNameConst, if_neg hd, if_neg h1, if_neg h3, if_pos h49]
    · intro t ht hne1 hne3 hne49
      have h1 : ¬ (item.msgType = some 1) := by
        rw [ht]; simp only [Option.some_inj]; exact hne1
      have h3 : ¬ (item.msgType = some 3) := by
        rw [ht]; simp only [Option.some_inj]; exact hne3
      have h49 : ¬ (item.msgType = some 49 ∧ item.appMsgType = some 6) := by
        intro hc
        rw [ht] at hc
        have : t = 49 := Option.some_inj.mp hc.1
        exact hne49 ⟨this, hc.2⟩
      simp only [normalizeOne, toUserNameConst, if_neg hd, if_neg h1, if_neg h3, if_neg h49]
    · intro ht
      have h1 : ¬ (item.msgType = some 1) := by rw [ht]; decide
      have h3 : ¬ (item.msgType = some 3) := by rw [ht]; decide
      have h49 : ¬ (item.msgType = some 49 ∧ item.appMsgType = some 6) := by
        rw [ht]; intro hc; cases hc.1
      simp only [normalizeOne, toUserNameConst, if_neg hd, if_neg h1, if_neg h3, if_neg h49]

/-- Witness for C5 on a concrete file record from `filehelper`. -/
theorem normalize_messages_spec_witness :
    (("filehelper" : String) = "filehelper" ∨ ("x" : String) = "filehelper")
    ∧ (⟨"9", "filehelper", "x", "", some 49, some 6, some "r.pdf"⟩ : RawItem).msgType
        = some 49
    ∧ (⟨"9", "filehelper", "x", "", some 49, some 6, some "r.pdf"⟩ : RawItem).appMsgType
        = some 6
    ∧ normalizeOne id ⟨"9", "filehelper", "x", "", some 49, some 6, some "r.pdf"⟩
        = some ⟨"9", "file", "[File: r.pdf]", some "r.pdf", false⟩ := by
  refine ⟨Or.inl rfl, rfl, rfl, ?_⟩
  have h := (((normalize_messages_spec id).2.1
    ⟨"9", "filehelper", "x", "", some 49, some 6, some "r.pdf"⟩
    (Or.inl rfl)).2.2.1) rfl rfl
  rw [h]
  decide

/-! ## C3: `WeChatHelperBot._synccheck`

The synccheck response body is a small JavaScript assignment such as
`window.synccheck={retcode:"0",selector:"2"}`.  The engine extracts
`retcode` and `selector` with `_regex_group(body, r'retcode\s*:\s*"?(\d+)"?')`
(first match, greedy digits).  The scanner below implements exactly that
search for this pattern shape over `List Char`. -/

def wsChar (c : Char) : Bool :=
  c.toNat = 32 ∨ c.toNat = 9 ∨ c.toNat = 10 ∨ c.toNat = 13 ∨ c.toNat = 11 ∨ c.toNat = 12

def isDigitC (c : Char) : Bool :=
  48 ≤ c.toNat ∧ c.toNat ≤ 57

/-- Continue the regex `\s*:\s*"?(\d+)"?` right after the literal key:
skip whitespace, require `:`, skip whitespace, optionally consume one `"`,
then capture one or more digits (greedy). -/
def afterKeyDigits (s : List Char) : Option (List Char) :=
  match s.dropWhile wsChar with
  | ':' :: s2 =>
    match s2.dropWhile wsChar with
    | '"' :: s4 =>
      let d := s4.takeWhile isDigitC
      if d = [] then none else some d
    | s3 =>
      let d := s3.takeWhile isDigitC
      if d = [] then none else some d
  | _ => none

/-- `re.search` for the pattern `key\s*:\s*"?(\d+)"?`: try each start
position left to right; on a failed continuation resume the search one
character further. -/
def scanKeyDigits (key : List Char) : List Char → Option (List Char)
  | [] => none
  | c :: rest =>
    if key.isPrefixOf (c :: rest) then
      match afterKeyDigits ((c :: rest).drop key.length) with
      | some d => some d
      | none => scanKeyDigits key rest
    else scanKeyDigits key rest

/-- `_regex_group`: the first capture group, or `""` when there is no
match. -/
def regexGroupDigits (key : List Char) (body : List Char) : List Char :=
  match scanKeyDigits key body with
  | some d => d
  | none => []

def retcodeKey : List Char := ['r', 'e', 't', 'c', 'o', 'd', 'e']

def selectorKey : List Char := ['s', 'e', 'l', 'e', 'c', 't', 'o', 'r']

/-- `WeChatHelperBot._synccheck()`: guard clauses for a missing client or
missing `skey`/`sid`/`uin`; `resync` on transport failure (`transport =
none` models a request exception or an error status); otherwise the
retcode/selector mapping over the extracted digit strings. -/
def synccheck (hasClient : Bool) (skey sid uin : String)
    (transport : Option (List Char)) : String :=
  if hasClient = false then "loginout"
  else if skey = "" ∨ sid = "" ∨ uin = "" then "loginout"
  else
    match transport with
    | none => "resync"
    | some body =>
      let retcode := regexGroupDigits retcodeKey body
      let selector := regexGroupDigits selectorKey body
      if retcode ≠ ['0'] then "loginout"
      else if selector ≠ [] ∧ selector ≠ ['0'] then "hasMsg"
      else "wait"

/-- The decimal digit characters, used to render the upstream server's
numeric fields. -/
def digitToChar (d : Nat) : Char :=
  match d with
  | 0 => '0'
  | 1 => '1'
  | 2 => '2'
  | 3 => '3'
  | 4 => '4'
  | 5 => '5'
  | 6 => '6'
  | 7 => '7'
  | 8 => '8'
  | _ => '9'

def natCharsAux : Nat → Nat → List Char
  | 0, _ => []
  | fuel + 1, n =>
    if n < 10 then [digitToChar n]
    else natCharsAux fuel (n / 10) ++ [digitToChar (n % 10)]

/-- Canonical decimal rendering of a natural number. -/
def natChars (n : Nat) : List Char :=
  natCharsAux (n + 1) n

/-- A canonical synccheck body with both fields. -/
def syncBodyChars (rc sel : Nat) : List Char :=
  ['w', 'i', 'n', 'd', 'o', 'w', '.', 's', 'y', 'n', 'c', 'c', 'h', 'e', 'c',
   'k', '=', '{', 'r', 'e', 't', 'c', 'o', 'd', 'e', ':', '"'] ++ natChars rc
    ++ ['"', ',', 's', 'e', 'l', 'e', 'c', 't', 'o', 'r', ':', '"'] ++ natChars sel
    ++ ['"', '}']

/-- A synccheck body carrying no selector field. -/
def syncBodyNoSelChars (rc : Nat) : List Char :=
  ['w', 'i', 'n', 'd', 'o', 'w', '.', 's', 'y', 'n', 'c', 'c', 'h', 'e', 'c',
   'k', '=', '{', 'r', 'e', 't', 'c', 'o', 'd', 'e', ':', '"'] ++ natChars rc
    ++ ['"', '}']

lemma digitToChar_digit (d : Nat) : isDigitC (digitToChar d) = true := by
  unfold digitToChar
  split <;> decide

lemma digitToChar_eq_zero_iff (d : Nat) : digitToChar d = '0' ↔ d = 0 := by
  unfold digitToChar
  split
  · simp
  · simp
  all_goals simp_all <;> decide

lemma natCharsAux_spec : ∀ (fuel n : Nat), n < fuel →
    natCharsAux fuel n ≠ [] ∧ (∀ c ∈ natCharsAux fuel n, isDigitC c = true) := by
  intro fuel
  induction fuel with
  | zero => intro n h; omega
  | succ f ih =>
    intro n h
    by_cases h10 : n < 10
    · simp only [natCharsAux, if_pos h10]
      refine ⟨by simp, ?_⟩
      intro c hc
      simp only [List.mem_singleton] at hc
      subst hc
      exact digitToChar_digit n
    · have hdiv : n / 10 < f := by
        have := Nat.div_lt_self (by omega : 0 < n) (by omega : 1 < 10)
        omega
      have hrec := ih (n / 10) hdiv
      simp only [natCharsAux, if_neg h10]
      refine ⟨by simp, ?_⟩
      intro c hc
      rcases List.mem_append.mp hc with hm | hm
      · exact hrec.2 c hm
      · simp only [List.mem_singleton] at hm
        subst hm
        exact digitToChar_digit (n % 10)

lemma natChars_ne_nil (n : Nat) : natChars n ≠ [] :=
  (natCharsAux_spec (n + 1) n (Nat.lt_succ_self n)).1

lemma natChars_digits (n : Nat) : ∀ c ∈ natChars n, isDigitC c = true :=
  (natCharsAux_spec (n + 1) n (Nat.lt_succ_self n)).2

lemma natChars_eq_zero_iff (n : Nat) : natChars n = ['0'] ↔ n = 0 := by
  constructor
  · intro h
    by_cases h10 : n < 10
    · simp only [natChars, natCharsAux, if_pos h10] at h
      have : digitToChar n = '0' := by
        injection h
      exact (digitToChar_eq_zero_iff n).mp this
    · exfalso
      simp only [natChars, natCharsAux, if_neg h10] at h
      have hne := (natCharsAux_spec n (n / 10) (by
        have := Nat.div_lt_self (by omega : 0 < n) (by omega : 1 < 10)
        omega)).1
      have : (natCharsAux n (n / 10) ++ [digitToChar (n % 10)]).length = 1 := by
        rw [h]
        rfl
      simp only [List.length_append, List.length_cons, List.length_nil] at this
      have : natCharsAux n (n / 10) = [] := by
        cases hcs : natCharsAux n (n / 10) with
        | nil => rfl
        | cons a l =>
          rw [hcs] at this
          simp only [List.length_cons] at this
          omega
      exact hne this
  · intro h
    subst h
    rfl

lemma takeWhile_append_of_head {p : Char → Bool} :
    ∀ (ds : List Char), (∀ d ∈ ds, p d = true) →
    ∀ (c : Char) (rest : List Char), p c = false →
    (ds ++ c :: rest).takeWhile p = ds := by
  intro ds
  induction ds with
  | nil =>
    intro _ c rest hc
    simp [List.takeWhile, hc]
  | cons d ds ih =>
    intro hds c rest hc
    have hd : p d = true := hds d (List.mem_cons_self d ds)
    simp only [List.cons_append, List.takeWhile_cons, hd, if_true]
    rw [ih (fun x hx => hds x (List.mem_cons_of_mem d hx)) c rest hc]

lemma isPrefixOf_cons_false (k0 : Char) (ks : List Char) (c : Char)
    (rest : List Char) (h : (k0 == c) = false) :
    ((k0 :: ks).isPrefixOf (c :: rest)) = false := by
  simp only [List.isPrefixOf, h, Bool.false_and]

lemma isPrefixOf_cons2_false (k0 k1 : Char) (ks : List Char) (c0 c1 : Char)
    (rest : List Char) (h : (k1 == c1) = false) :
    ((k0 :: k1 :: ks).isPrefixOf (c0 :: c1 :: rest)) = false := by
  simp only [List.isPrefixOf, h, Bool.false_and, Bool.and_false]

lemma scan_step_neq (k0 : Char) (ks : List Char) (c : Char) (rest : List Char)
    (h : (k0 == c) = false) :
    scanKeyDigits (k0 :: ks) (c :: rest) = scanKeyDigits (k0 :: ks) rest := by
  simp only [scanKeyDigits, isPrefixOf_cons_false k0 ks c rest h, Bool.false_eq_true,
    if_false]

lemma scan_step_neq2 (k0 k1 : Char) (ks : List Char) (c0 c1 : Char)
    (rest : List Char) (h : (k1 == c1) = false) :
    scanKeyDigits (k0 :: k1 :: ks) (c0 :: c1 :: rest)
      = scanKeyDigits (k0 :: k1 :: ks) (c1 :: rest) := by
  simp only [scanKeyDigits, isPrefixOf_cons2_false k0 k1 ks c0 c1 rest h,
    Bool.false_eq_true, if_false]

lemma scan_skip_digits (k0 : Char) (ks : List Char) (hk : isDigitC k0 = false) :
    ∀ (ds : List Char), (∀ d ∈ ds, isDigitC d = true) → ∀ (rest : List Char),
    scanKeyDigits (k0 :: ks) (ds ++ rest) = scanKeyDigits (k0 :: ks) rest := by
  intro ds
  induction ds with
  | nil => intro _ rest; rfl
  | cons d ds ih =>
    intro hds rest
    have hd : isDigitC d = true := hds d (List.mem_cons_self d ds)
    have hne : (k0 == d) = false := by
      rw [beq_eq_false_iff_ne]
      intro h
      subst h
      rw [hk] at hd
      cases hd
    rw [List.cons_append, scan_step_neq k0 ks d (ds ++ rest) hne]
    exact ih (fun x hx => hds x (List.mem_cons_of_mem d hx)) rest

lemma isPrefixOf_append_self : ∀ (l rest : List Char), (l.isPrefixOf (l ++ rest)) = true
  | [], _ => by simp [List.isPrefixOf]
  | a :: l, rest => by
    simp only [List.isPrefixOf, List.cons_append, beq_self_eq_true, Bool.true_and]
    exact isPrefixOf_append_self l rest

lemma scan_at_match (k0 : Char) (ks : List Char) (rest : List Char)
    (d : List Char) (h : afterKeyDigits rest = some d) :
    scanKeyDigits (k0 :: ks) ((k0 :: ks) ++ rest) = some d := by
  have hpre : ((k0 :: ks).isPrefixOf ((k0 :: ks) ++ rest)) = true :=
    isPrefixOf_append_self (k0 :: ks) rest
  have hdrop : ((k0 :: ks) ++ rest).drop (k0 :: ks).length = rest :=
    List.drop_left _ _
  cases hc : (k0 :: ks) ++ rest with
  | nil => simp at hc
  | cons c tail =>
    rw [← hc]
    show scanKeyDigits (k0 :: ks) ((k0 :: ks) ++ rest) = some d
    rw [hc]
    simp only [scanKeyDigits]
    rw [← hc, hpre, hdrop, h]
    simp

lemma afterKey_colon_quote (ds : List Char) (hds : ∀ d ∈ ds, isDigitC d = true)
    (hne : ds ≠ []) (c : Char) (rest : List Char) (hc : isDigitC c = false) :
    afterKeyDigits (':' :: '"' :: (ds ++ c :: rest)) = some ds := by
  have h1 : wsChar ':' = false := by decide
  have h2 : wsChar '"' = false := by decide
  simp only [afterKeyDigits, List.dropWhile_cons, h1, h2, Bool.false_eq_true,
    if_false, takeWhile_append_of_head ds hds c rest hc, if_neg hne]

lemma scan_retcode_full (rc sel : Nat) :
    scanKeyDigits retcodeKey (syncBodyChars rc sel) = some (natChars rc) := by
  simp only [syncBodyChars, retcodeKey, List.append_assoc, List.cons_append, List.nil_append]
  rw [scan_step_neq 'r' ['e', 't', 'c', 'o', 'd', 'e'] 'w' _ (by decide)]
  rw [scan_step_neq 'r' ['e', 't', 'c', 'o', 'd', 'e'] 'i' _ (by decide)]
  rw [scan_step_neq 'r' ['e', 't', 'c', 'o', 'd', 'e'] 'n' _ (by decide)]
  rw [scan_step_neq 'r' ['e', 't', 'c', 'o', 'd', 'e'] 'd' _ (by decide)]
  rw [scan_step_neq 'r' ['e', 't', 'c', 'o', 'd', 'e'] 'o' _ (by decide)]
  rw [scan_step_neq 'r' ['e', 't', 'c', 'o', 'd', 'e'] 'w' _ (by decide)]
  rw [scan_step_neq 'r' ['e', 't', 'c', 'o', 'd', 'e'] '.' _ (by decide)]
  rw [scan_step_neq 'r' ['e', 't', 'c', 'o', 'd', 'e'] 's' _ (by decide)]
  rw [scan_step_neq 'r' ['e', 't', 'c', 'o', 'd', 'e'] 'y' _ (by decide)]
  rw [scan_step_neq 'r' ['e', 't', 'c', 'o', 'd', 'e'] 'n' _ (by decide)]
  rw [scan_step_neq 'r' ['e', 't', 'c', 'o', 'd', 'e'] 'c' _ (by decide)]
  rw [scan_step_neq 'r' ['e', 't', 'c', 'o', 'd', 'e'] 'c' _ (by decide)]
  rw [scan_step_neq 'r' ['e', 't', 'c', 'o', 'd', 'e'] 'h' _ (by decide)]
  rw [scan_step_neq 'r' ['e', 't', 'c', 'o', 'd', 'e'] 'e' _ (by decide)]
  rw [scan_step_neq 'r' ['e', 't', 'c', 'o', 'd', 'e'] 'c' _ (by decide)]
  rw [scan_step_neq 'r' ['e', 't', 'c', 'o', 'd', 'e'] 'k' _ (by decide)]
  rw [scan_step_neq 'r' ['e', 't', 'c', 'o', 'd', 'e'] '=' _ (by decide)]
  rw [scan_step_neq 'r' ['e', 't', 'c', 'o', 'd', 'e'] '{' _ (by decide)]
  exact scan_at_match 'r' ['e', 't', 'c', 'o', 'd', 'e']
    (':' :: '"' :: (natChars rc ++ ('"' :: ',' :: 's' :: 'e' :: 'l' :: 'e' :: 'c'
      :: 't' :: 'o' :: 'r' :: ':' :: '"' :: (natChars sel ++ ('"' :: '}' :: [])))))
    (natChars rc)
    (afterKey_colon_quote (natChars rc) (natChars_digits rc) (natChars_ne_nil rc)
      '"' (',' :: 's' :: 'e' :: 'l' :: 'e' :: 'c' :: 't' :: 'o' :: 'r' :: ':'
        :: '"' :: (natChars sel ++ ('"' :: '}' :: []))) (by decide))

lemma scan_selector_full (rc sel : Nat) :
    scanKeyDigits selectorKey (syncBodyChars rc sel) = some (natChars sel) := by
  simp only [syncBodyChars, selectorKey, List.append_assoc, List.cons_append, List.nil_append]
  rw [scan_step_neq 's' ['e', 'l', 'e', 'c', 't', 'o', 'r'] 'w' _ (by decide)]
  rw [scan_step_neq 's' ['e', 'l', 'e', 'c', 't', 'o', 'r'] 'i' _ (by decide)]
  rw [scan_step_neq 's' ['e', 'l', 'e', 'c', 't', 'o', 'r'] 'n' _ (by decide)]
  rw [scan_step_neq 's' ['e', 'l', 'e', 'c', 't', 'o', 'r'] 'd' _ (by decide)]
  rw [scan_step_neq 's' ['e', 'l', 'e', 'c', 't', 'o', 'r'] 'o' _ (by decide)]
  rw [scan_step_neq 's' ['e', 'l', 'e', 'c', 't', 'o', 'r'] 'w' _ (by decide)]
  rw [scan_step_neq 's' ['e', 'l', 'e', 'c', 't', 'o', 'r'] '.' _ (by decide)]
  rw [scan_step_neq2 's' 'e' ['l', 'e', 'c', 't', 'o', 'r'] 's' 'y' _ (by decide)]
  rw [scan_step_neq 's' ['e', 'l', 'e', 'c', 't', 'o', 'r'] 'y' _ (by decide)]
  rw [scan_step_neq 's' ['e', 'l', 'e', 'c', 't', 'o', 'r'] 'n' _ (by decide)]
  rw [scan_step_neq 's' ['e', 'l', 'e', 'c', 't', 'o', 'r'] 'c' _ (by decide)]
  rw [scan_step_neq 's' ['e', 'l', 'e', 'c', 't', 'o', 'r'] 'c' _ (by decide)]
  rw [scan_step_neq 's' ['e', 'l', 'e', 'c', 't', 'o', 'r'] 'h' _ (by decide)]
  rw [scan_step_neq 's' ['e', 'l', 'e', 'c', 't', 'o', 'r'] 'e' _ (by decide)]
  rw [scan_step_neq 's' ['e', 'l', 'e', 'c', 't', 'o', 'r'] 'c' _ (by decide)]
  rw [scan_step_neq 's' ['e', 'l', 'e', 'c', 't', 'o', 'r'] 'k' _ (by decide)]
  rw [scan_step_neq 's' ['e', 'l', 'e', 'c', 't', 'o', 'r'] '=' _ (by decide)]
  rw [scan_step_neq 's' ['e', 'l', 'e', 'c', 't', 'o', 'r'] '{' _ (by decide)]
  rw [scan_step_neq 's' ['e', 'l', 'e', 'c', 't', 'o', 'r'] 'r' _ (by decide)]
  rw [scan_step_neq 's' ['e', 'l', 'e', 'c', 't', 'o', 'r'] 'e' _ (by decide)]
  rw [scan_step_neq 's' ['e', 'l', 'e', 'c', 't', 'o', 'r'] 't' _ (by decide)]
  rw [scan_step_neq 's' ['e', 'l', 'e', 'c', 't', 'o', 'r'] 'c' _ (by decide)]
  rw [scan_step_neq 's' ['e', 'l', 'e', 'c', 't', 'o', 'r'] 'o' _ (by decide)]
  rw [scan_step_neq 's' ['e', 'l', 'e', 'c', 't', 'o', 'r'] 'd' _ (by decide)]
  rw [scan_step_neq 's' ['e', 'l', 'e', 'c', 't', 'o', 'r'] 'e' _ (by decide)]
  rw [scan_step_neq 's' ['e', 'l', 'e', 'c', 't', 'o', 'r'] ':' _ (by decide)]
  rw [scan_step_neq 's' ['e', 'l', 'e', 'c', 't', 'o', 'r'] '\"' _ (by decide)]
  rw [scan_skip_digits 's' ['e', 'l', 'e', 'c', 't', 'o', 'r'] (by decide) (natChars rc) (natChars_digits rc) _]
  rw [scan_step_neq 's' ['e', 'l', 'e', 'c', 't', 'o', 'r'] '\"' _ (by decide)]
  rw [scan_step_neq 's' ['e', 'l', 'e', 'c', 't', 'o', 'r'] ',' _ (by decide)]
  exact scan_at_match 's' ['e', 'l', 'e', 'c', 't', 'o', 'r']
    (':' :: '"' :: (natChars sel ++ ('"' :: '}' :: [])))
    (natChars sel)
    (afterKey_colon_quote (natChars sel) (natChars_digits sel) (natChars_ne_nil sel)
      '"' ('}' :: []) (by decide))

lemma scan_retcode_nosel (rc : Nat) :
    scanKeyDigits retcodeKey (syncBodyNoSelChars rc) = some (natChars rc) := by
  simp only [syncBodyNoSelChars, retcodeKey, List.append_assoc, List.cons_append, List.nil_append]
  rw [scan_step_neq 'r' ['e', 't', 'c', 'o', 'd', 'e'] 'w' _ (by decide)]
  rw [scan_step_neq 'r' ['e', 't', 'c', 'o', 'd', 'e'] 'i' _ (by decide)]
  rw [scan_step_neq 'r' ['e', 't', 'c', 'o', 'd', 'e'] 'n' _ (by decide)]
  rw [scan_step_neq 'r' ['e', 't', 'c', 'o', 'd', 'e'] 'd' _ (by decide)]
  rw [scan_step_neq 'r' ['e', 't', 'c', 'o', 'd', 'e'] 'o' _ (by decide)]
  rw [scan_step_neq 'r' ['e', 't', 'c', 'o', 'd', 'e'] 'w' _ (by decide)]
  rw [scan_step_neq 'r' ['e', 't', 'c', 'o', 'd', 'e'] '.' _ (by decide)]
  rw [scan_step_neq 'r' ['e', 't', 'c', 'o', 'd', 'e'] 's' _ (by decide)]
  rw [scan_step_neq 'r' ['e', 't', 'c', 'o', 'd', 'e'] 'y' _ (by decide)]
  rw [scan_step_neq 'r' ['e', 't', 'c', 'o', 'd', 'e'] 'n' _ (by decide)]
  rw [scan_step_neq 'r' ['e', 't', 'c', 'o', 'd', 'e'] 'c' _ (by decide)]
  rw [scan_step_neq 'r' ['e', 't', 'c', 'o', 'd', 'e'] 'c' _ (by decide)]
  rw [scan_step_neq 'r' ['e', 't', 'c', 'o', 'd', 'e'] 'h' _ (by decide)]
  rw [scan_step_neq 'r' ['e', 't', 'c', 'o', 'd', 'e'] 'e' _ (by decide)]
  rw [scan_step_neq 'r' ['e', 't', 'c', 'o', 'd', 'e'] 'c' _ (by decide)]
  rw [scan_step_neq 'r' ['e', 't', 'c', 'o', 'd', 'e'] 'k' _ (by decide)]
  rw [scan_step_neq 'r' ['e', 't', 'c', 'o', 'd', 'e'] '=' _ (by decide)]
  rw [scan_step_neq 'r' ['e', 't', 'c', 'o', 'd', 'e'] '{' _ (by decide)]
  exact scan_at_match 'r' ['e', 't', 'c', 'o', 'd', 'e']
    (':' :: '"' :: (natChars rc ++ ('"' :: '}' :: [])))
    (natChars rc)
    (afterKey_colon_quote (natChars rc) (natChars_digits rc) (natChars_ne_nil rc)
      '"' ('}' :: []) (by decide))

lemma scan_selector_nosel (rc : Nat) :
    scanKeyDigits selectorKey (syncBodyNoSelChars rc) = none := by
  simp only [syncBodyNoSelChars, selectorKey, List.append_assoc, List.cons_append, List.nil_append]
  rw [scan_step_neq 's' ['e', 'l', 'e', 'c', 't', 'o', 'r'] 'w' _ (by decide)]
  rw [scan_step_neq 's' ['e', 'l', 'e', 'c', 't', 'o', 'r'] 'i' _ (by decide)]
  rw [scan_step_neq 's' ['e', 'l', 'e', 'c', 't', 'o', 'r'] 'n' _ (by decide)]
  rw [scan_step_neq 's' ['e', 'l', 'e', 'c', 't', 'o', 'r'] 'd' _ (by decide)]
  rw [scan_step_neq 's' ['e', 'l', 'e', 'c', 't', 'o', 'r'] 'o' _ (by decide)]
  rw [scan_step_neq 's' ['e', 'l', 'e', 'c', 't', 'o', 'r'] 'w' _ (by decide)]
  rw [scan_step_neq 's' ['e', 'l', 'e', 'c', 't', 'o', 'r'] '.' _ (by decide)]
  rw [scan_step_neq2 's' 'e' ['l', 'e', 'c', 't', 'o', 'r'] 's' 'y' _ (by decide)]
  rw [scan_step_neq 's' ['e', 'l', 'e', 'c', 't', 'o', 'r'] 'y' _ (by decide)]
  rw [scan_step_neq 's' ['e', 'l', 'e', 'c', 't', 'o', 'r'] 'n' _ (by decide)]
  rw [scan_step_neq 's' ['e', 'l', 'e', 'c', 't', 'o', 'r'] 'c' _ (by decide)]
  rw [scan_step_neq 's' ['e', 'l', 'e', 'c', 't', 'o', 'r'] 'c' _ (by decide)]
  rw [scan_step_neq 's' ['e', 'l', 'e', 'c', 't', 'o', 'r'] 'h' _ (by decide)]
  rw [scan_step_neq 's' ['e', 'l', 'e', 'c', 't', 'o', 'r'] 'e' _ (by decide)]
  rw [scan_step_neq 's' ['e', 'l', 'e', 'c', 't', 'o', 'r'] 'c' _ (by decide)]
  rw [scan_step_neq 's' ['e', 'l', 'e', 'c', 't', 'o', 'r'] 'k' _ (by decide)]
  rw [scan_step_neq 's' ['e', 'l', 'e', 'c', 't', 'o', 'r'] '=' _ (by decide)]
  rw [scan_step_neq 's' ['e', 'l', 'e', 'c', 't', 'o', 'r'] '{' _ (by decide)]
  rw [scan_step_neq 's' ['e', 'l', 'e', 'c', 't', 'o', 'r'] 'r' _ (by decide)]
  rw [scan_step_neq 's' ['e', 'l', 'e', 'c', 't', 'o', 'r'] 'e' _ (by decide)]
  rw [scan_step_neq 's' ['e', 'l', 'e', 'c', 't', 'o', 'r'] 't' _ (by decide)]
  rw [scan_step_neq 's' ['e', 'l', 'e', 'c', 't', 'o', 'r'] 'c' _ (by decide)]
  rw [scan_step_neq 's' ['e', 'l', 'e', 'c', 't', 'o', 'r'] 'o' _ (by decide)]
  rw [scan_step_neq 's' ['e', 'l', 'e', 'c', 't', 'o', 'r'] 'd' _ (by decide)]
  rw [scan_step_neq 's' ['e', 'l', 'e', 'c', 't', 'o', 'r'] 'e' _ (by decide)]
  rw [scan_step_neq 's' ['e', 'l', 'e', 'c', 't', 'o', 'r'] ':' _ (by decide)]
  rw [scan_step_neq 's' ['e', 'l', 'e', 'c', 't', 'o', 'r'] '\"' _ (by decide)]
  rw [scan_skip_digits 's' ['e', 'l', 'e', 'c', 't', 'o', 'r'] (by decide) (natChars rc) (natChars_digits rc) _]
  rw [scan_step_neq 's' ['e', 'l', 'e', 'c', 't', 'o', 'r'] '\"' _ (by decide)]
  rw [scan_step_neq 's' ['e', 'l', 'e', 'c', 't', 'o', 'r'] '}' _ (by decide)]
  rfl

/-- C3: over canonical synccheck bodies, the sync-check result is computed
exactly as the spec's mapping says: a non-zero retcode yields `loginout`;
retcode 0 with selector 0 (or with no selector field at all) yields `wait`;
retcode 0 with any non-zero selector yields `hasMsg`; and every transport
failure (request exception or error status) yields `resync`. -/
theorem synccheck_mapping_spec (skey sid uin : String)
    (h1 : skey ≠ "") (h2 : sid ≠ "") (h3 : uin ≠ "") (rc sel : Nat) :
    (synccheck true skey sid uin (some (syncBodyChars rc sel))
      = if rc ≠ 0 then "loginout" else if sel = 0 then "wait" else "hasMsg")
    ∧ (synccheck true skey sid uin (some (syncBodyNoSelChars rc))
      = if rc ≠ 0 then "loginout" else "wait")
    ∧ synccheck true skey sid uin none = "resync" := by
  have hg : ¬ (skey = "" ∨ sid = "" ∨ uin = "") := by
    intro h
    rcases h with h | h | h
    · exact h1 h
    · exact h2 h
    · exact h3 h
  have htf : ¬ ((true : Bool) = false) := by decide
  refine ⟨?_, ?_, ?_⟩
  · simp only [synccheck, if_neg htf, if_neg hg, regexGroupDigits,
      scan_retcode_full, scan_selector_full]
    by_cases hrc : rc = 0
    · subst hrc
      have h0 : natChars 0 = ['0'] := rfl
      rw [h0]
      simp only [ne_eq, not_true_eq_false, if_neg (by simp : ¬ ¬ (['0'] = ['0']))]
      by_cases hsel : sel = 0
      · subst hsel
        rw [h0]
        simp
      · have hne : natChars sel ≠ ['0'] := fun h => hsel ((natChars_eq_zero_iff sel).mp h)
        simp [natChars_ne_nil sel, hne, hsel]
    · have hne : natChars rc ≠ ['0'] := fun h => hrc ((natChars_eq_zero_iff rc).mp h)
      simp [hne, hrc]
  · simp only [synccheck, if_neg htf, if_neg hg, regexGroupDigits,
      scan_retcode_nosel, scan_selector_nosel]
    by_cases hrc : rc = 0
    · subst hrc
      have h0 : natChars 0 = ['0'] := rfl
      rw [h0]
      simp
    · have hne : natChars rc ≠ ['0'] := fun h => hrc ((natChars_eq_zero_iff rc).mp h)
      simp [hne, hrc]
  · simp only [synccheck, if_neg htf, if_neg hg]

/-- Witness for C3 at retcode 0, selector 2. -/
theorem synccheck_mapping_spec_witness :
    (("k" : String) ≠ "" ∧ ("s" : String) ≠ "" ∧ ("1" : String) ≠ "")
    ∧ synccheck true "k" "s" "1" (some (syncBodyChars 0 2))
        = (if (0 : Nat) ≠ 0 then "loginout" else if (2 : Nat) = 0 then "wait" else "hasMsg") :=
  ⟨⟨by decide, by decide, by decide⟩,
    (synccheck_mapping_spec "k" "s" "1" (by decide) (by decide) (by decide) 0 2).1⟩

/-! ## C4: trace redaction (`direct_bot.py`, `_SANITIZE_PATTERNS`,
`_SANITIZE_JSON_PATTERNS`, `_sanitize_headers`, `_sanitize_text`)

`_sanitize_text` applies, in order, the nine URL-style patterns
`(name\s*[=:]\s*)([^&\s"',;]+)` (replacement `\1***`) and then the seven
JSON-style patterns `("name"\s*:\s*")[^"]*(")` (replacement `\1***\2`), all
case-insensitive, each via `re.sub` (global, left to right, resuming after
each match).  The functions below implement exactly those substitutions
over `List Char`. -/

/-- ASCII case folding on code points (`re.IGNORECASE` on the ASCII
patterns at hand). -/
def myLowerN (n : Nat) : Nat :=
  if 65 ≤ n ∧ n ≤ 90 then n + 32 else n

/-- The value class `[^&\s"',;]` of the URL-style patterns. -/
def isValC (c : Char) : Bool :=
  ¬ (wsChar c = true ∨ c.toNat = 38 ∨ c.toNat = 34 ∨ c.toNat = 39
      ∨ c.toNat = 44 ∨ c.toNat = 59)

/-- Case-insensitive literal match: on success returns the consumed prefix
(original casing) and the remainder. -/
def matchCI : List Char → List Char → Option (List Char × List Char)
  | [], s => some ([], s)
  | _ :: _, [] => none
  | a :: as, b :: bs =>
    if myLowerN a.toNat = myLowerN b.toNat then
      match matchCI as bs with
      | some (p, r) => some (b :: p, r)
      | none => none
    else none

/-- Try the URL-style pattern `name\s*[=:]\s*[^&\s"',;]+` at the start of
`s`: on success returns the kept text (`\1` of the pattern) and the
remainder after the matched value. -/
def tryUrlMatchAt (name : List Char) (s : List Char) : Option (List Char × List Char) :=
  match matchCI name s with
  | none => none
  | some (p1, r1) =>
    let ws1 := r1.takeWhile wsChar
    let r2 := r1.dropWhile wsChar
    match r2 with
    | sep :: r3 =>
      if sep = '=' ∨ sep = ':' then
        let ws2 := r3.takeWhile wsChar
        let r4 := r3.dropWhile wsChar
        let val := r4.takeWhile isValC
        if val = [] then none
        else some (p1 ++ ws1 ++ (sep :: ws2), r4.dropWhile isValC)
      else none
    | [] => none

/-- `re.sub` for one URL-style pattern, with fuel (one unit per scanned
character suffices). -/
def subUrlGo (name : List Char) : Nat → List Char → List Char
  | _, [] => []
  | 0, s => s
  | fuel + 1, c :: rest =>
    match tryUrlMatchAt name (c :: rest) with
    | some (kept, rem) => kept ++ '*' :: '*' :: '*' :: subUrlGo name fuel rem
    | none => c :: subUrlGo name fuel rest

def subUrl (name : List Char) (s : List Char) : List Char :=
  subUrlGo name s.length s

/-- Try the JSON-style pattern `"name"\s*:\s*"[^"]*"` at the start of `s`:
on success returns `\1` (up to and including the value's opening quote) and
the remainder after the closing quote (`\2`). -/
def tryJsonMatchAt (name : List Char) (s : List Char) : Option (List Char × List Char) :=
  match s with
  | [] => none
  | c :: s1 =>
    if c = '"' then
      match matchCI name s1 with
      | none => none
      | some (p1, r1) =>
        match r1 with
        | [] => none
        | c2 :: r2 =>
          if c2 = '"' then
            let ws1 := r2.takeWhile wsChar
            match r2.dropWhile wsChar with
            | [] => none
            | c3 :: r4 =>
              if c3 = ':' then
                let ws2 := r4.takeWhile wsChar
                match r4.dropWhile wsChar with
                | [] => none
                | c4 :: r6 =>
                  if c4 = '"' then
                    match r6.dropWhile (fun ch => ¬ (ch = '"')) with
                    | [] => none
                    | c5 :: r8 =>
                      if c5 = '"' then
                        some (('"' :: p1) ++ ('"' :: ws1) ++ (':' :: ws2) ++ ['"'], r8)
                      else none
                  else none
              else none
          else none
    else none

/-- `re.sub` for one JSON-style pattern (replacement `\1***\2`), with
fuel. -/
def subJsonGo (name : List Char) : Nat → List Char → List Char
  | _, [] => []
  | 0, s => s
  | fuel + 1, c :: rest =>
    match tryJsonMatchAt name (c :: rest) with
    | some (kept, rem) => kept ++ '*' :: '*' :: '*' :: '"' :: subJsonGo name fuel rem
    | none => c :: subJsonGo name fuel rest

def subJson (name : List Char) (s : List Char) : List Char :=
  subJsonGo name s.length s

def passTicketChars : List Char := ['p', 'a', 's', 's', '_', 't', 'i', 'c', 'k', 'e', 't']

def webwxTicketChars : List Char :=
  ['w', 'e', 'b', 'w', 'x', '_', 'd', 'a', 't', 'a', '_', 't', 'i', 'c', 'k', 'e', 't']

def skeyChars : List Char := ['s', 'k', 'e', 'y']

def sidChars : List Char := ['s', 'i', 'd']

def wxsidChars : List Char := ['w', 'x', 's', 'i', 'd']

def deviceidChars : List Char := ['d', 'e', 'v', 'i', 'c', 'e', 'i', 'd']

def uinChars : List Char := ['u', 'i', 'n']

def aeskeyChars : List Char := ['a', 'e', 's', 'k', 'e', 'y']

def signatureChars : List Char := ['s', 'i', 'g', 'n', 'a', 't', 'u', 'r', 'e']

/-- The nine `_SANITIZE_PATTERNS` names, in source order. -/
def urlNames : List (List Char) :=
  [passTicketChars, webwxTicketChars, skeyChars, sidChars, wxsidChars,
   deviceidChars, uinChars, aeskeyChars, signatureChars]

/-- The seven `_SANITIZE_JSON_PATTERNS` names, in source order (patterns are
case-insensitive, so the names are given lower-cased).  `wxsid` and `uin`
have no JSON-style pattern. -/
def jsonNames : List (List Char) :=
  [passTicketChars, webwxTicketChars, skeyChars, sidChars, deviceidChars,
   signatureChars, aeskeyChars]

def star3 : List Char := ['*', '*', '*']

/-- `WeChatHelperBot._sanitize_text`: identity with redaction off, otherwise
the nine URL-style substitutions followed by the seven JSON-style ones. -/
def sanitizeText (redact : Bool) (s : List Char) : List Char :=
  if redact = false then s
  else jsonNames.foldl (fun acc n => subJson n acc)
    (urlNames.foldl (fun acc n => subUrl n acc) s)

def cookieChars : List Char := ['c', 'o', 'o', 'k', 'i', 'e']

def setCookieChars : List Char := ['s', 'e', 't', '-', 'c', 'o', 'o', 'k', 'i', 'e']

def authorizationChars : List Char :=
  ['a', 'u', 't', 'h', 'o', 'r', 'i', 'z', 'a', 't', 'i', 'o', 'n']

/-- `WeChatHelperBot._sanitize_headers`: the `cookie`, `set-cookie` and
`authorization` headers (compared lower-cased) become `***`; every other
header value goes through `_sanitize_text`. -/
def sanitizeHeaders (redact : Bool) (hs : List (List Char × List Char)) :
    List (List Char × List Char) :=
  hs.map (fun kv =>
    if kv.1.map asciiLower = cookieChars ∨ kv.1.map asciiLower = setCookieChars
        ∨ kv.1.map asciiLower = authorizationChars then
      (kv.1, star3)
    else (kv.1, sanitizeText redact kv.2))

/-- C4 (counterexample): JSON-style occurrences of `uin` and `wxsid` are not
redacted: there is no JSON pattern for them, and the URL-style patterns
require `=` or `:` directly after the name, which the `"Uin":"…"` shape does
not have.  Two traced bodies differing only in the `Uin` value therefore
produce different trace records, and the secret value survives verbatim. -/
theorem trace_redaction_cex :
    sanitizeText true
        ['{', '"', 'U', 'i', 'n', '"', ':', '"', '1', '1', '1', '"', '}']
      = ['{', '"', 'U', 'i', 'n', '"', ':', '"', '1', '1', '1', '"', '}']
    ∧ sanitizeText true
        ['{', '"', 'U', 'i', 'n', '"', ':', '"', '2', '2', '2', '"', '}']
      = ['{', '"', 'U', 'i', 'n', '"', ':', '"', '2', '2', '2', '"', '}']
    ∧ sanitizeText true
        ['{', '"', 'U', 'i', 'n', '"', ':', '"', '1', '1', '1', '"', '}']
      ≠ sanitizeText true
        ['{', '"', 'U', 'i', 'n', '"', ':', '"', '2', '2', '2', '"', '}']
    ∧ sanitizeText true
        ['{', '"', 'w', 'x', 's', 'i', 'd', '"', ':', '"', 's', 'e', 'c', '"', '}']
      = ['{', '"', 'w', 'x', 's', 'i', 'd', '"', ':', '"', 's', 'e', 'c', '"', '}'] := by
  refine ⟨by decide, by decide, by decide, by decide⟩

/-- A name character of the sanitize patterns: a lowercase letter or an
underscore. -/
def isNameChar (c : Char) : Prop :=
  (97 ≤ c.toNat ∧ c.toNat ≤ 122) ∨ c.toNat = 95

instance (c : Char) : Decidable (isNameChar c) := by
  unfold isNameChar
  infer_instance

/-- A tail that no pattern-name character can case-insensitively consume
into: digits, optionally closed by one `"`. -/
def Blocky (X : List Char) : Prop :=
  ∃ dsuf q, X = dsuf ++ q ∧ (∀ c ∈ dsuf, isDigitC c = true) ∧ (q = [] ∨ q = ['"'])

lemma subUrlGo_nil (p : List Char) (f : Nat) : subUrlGo p f [] = [] := by
  cases f <;> rfl

lemma subJsonGo_nil (p : List Char) (f : Nat) : subJsonGo p f [] = [] := by
  cases f <;> rfl

lemma subUrlGo_step_none (p : List Char) (f : Nat) (c : Char) (rest : List Char)
    (h : tryUrlMatchAt p (c :: rest) = none) :
    subUrlGo p (f + 1) (c :: rest) = c :: subUrlGo p f rest := by
  simp only [subUrlGo, h]

lemma subUrlGo_step_some (p : List Char) (f : Nat) (c : Char) (rest kept rem : List Char)
    (h : tryUrlMatchAt p (c :: rest) = some (kept, rem)) :
    subUrlGo p (f + 1) (c :: rest) = kept ++ '*' :: '*' :: '*' :: subUrlGo p f rem := by
  simp only [subUrlGo, h]

lemma subJsonGo_step_none (p : List Char) (f : Nat) (c : Char) (rest : List Char)
    (h : tryJsonMatchAt p (c :: rest) = none) :
    subJsonGo p (f + 1) (c :: rest) = c :: subJsonGo p f rest := by
  simp only [subJsonGo, h]

lemma subJsonGo_step_some (p : List Char) (f : Nat) (c : Char) (rest kept rem : List Char)
    (h : tryJsonMatchAt p (c :: rest) = some (kept, rem)) :
    subJsonGo p (f + 1) (c :: rest)
      = kept ++ '*' :: '*' :: '*' :: '"' :: subJsonGo p f rem := by
  simp only [subJsonGo, h]

lemma isNameChar_lower {a : Char} (h : isNameChar a) : myLowerN a.toNat = a.toNat := by
  unfold myLowerN
  rw [if_neg]
  rcases h with ⟨h1, h2⟩ | h1 <;> omega

lemma nameChar_ne_digit {a d : Char} (ha : isNameChar a) (hd : isDigitC d = true) :
    ¬ (myLowerN a.toNat = myLowerN d.toNat) := by
  simp only [isDigitC, decide_eq_true_eq] at hd
  rw [isNameChar_lower ha]
  have hlow : myLowerN d.toNat = d.toNat := by
    unfold myLowerN
    rw [if_neg]
    omega
  rw [hlow]
  rcases ha with ⟨h1, h2⟩ | h1 <;> omega

lemma nameChar_ne_quote {a : Char} (ha : isNameChar a) :
    ¬ (myLowerN a.toNat = myLowerN ('"').toNat) := by
  rw [isNameChar_lower ha]
  have h34 : myLowerN ('"').toNat = 34 := by decide
  rw [h34]
  rcases ha with ⟨h1, h2⟩ | h1 <;> omega

lemma digit_not_ws {c : Char} (h : isDigitC c = true) : wsChar c = false := by
  simp only [isDigitC, decide_eq_true_eq] at h
  simp only [wsChar, decide_eq_false_iff_not]
  omega

lemma digit_isVal {c : Char} (h : isDigitC c = true) : isValC c = true := by
  simp only [isDigitC, decide_eq_true_eq] at h
  simp only [isValC, wsChar]
  simp only [decide_eq_true_eq]
  omega

lemma digit_ne_char {c : Char} {d : Char} (h : isDigitC c = true)
    (hd : isDigitC d = false) : ¬ (c = d) := by
  intro hcd
  subst hcd
  rw [h] at hd
  cases hd

lemma blocky_head (X : List Char) (h : Blocky X) :
    X = [] ∨ ∃ c X', X = c :: X' ∧ (isDigitC c = true ∨ c = '"') := by
  obtain ⟨ds, q, rfl, hds, hq⟩ := h
  cases ds with
  | nil =>
    rcases hq with rfl | rfl
    · exact Or.inl rfl
    · exact Or.inr ⟨'"', [], rfl, Or.inr rfl⟩
  | cons d ds' =>
    exact Or.inr ⟨d, ds' ++ q, rfl, Or.inl (hds d (List.mem_cons_self d ds'))⟩

lemma matchCI_head_block {p' : List Char} {a : Char} (ha : isNameChar a)
    (X : List Char) (hX : Blocky X) : matchCI (a :: p') X = none := by
  rcases blocky_head X hX with rfl | ⟨c, X', rfl, hc⟩
  · rfl
  · simp only [matchCI]
    rw [if_neg]
    rcases hc with hd | rfl
    · exact nameChar_ne_digit ha hd
    · exact nameChar_ne_quote ha

lemma matchCI_ext : ∀ (p : List Char), (∀ c ∈ p, isNameChar c) →
    ∀ (t X₁ X₂ : List Char), Blocky X₁ → Blocky X₂ →
      (matchCI p (t ++ X₁) = none ∧ matchCI p (t ++ X₂) = none)
      ∨ (∃ q r, t = q ++ r ∧ matchCI p (t ++ X₁) = some (q, r ++ X₁)
          ∧ matchCI p (t ++ X₂) = some (q, r ++ X₂)) := by
  intro p
  induction p with
  | nil =>
    intro _ t X₁ X₂ _ _
    exact Or.inr ⟨[], t, rfl, rfl, rfl⟩
  | cons a p' ih =>
    intro hp t X₁ X₂ h1 h2
    have ha : isNameChar a := hp a (List.mem_cons_self a p')
    cases t with
    | nil =>
      left
      constructor
      · rw [List.nil_append]
        exact matchCI_head_block ha X₁ h1
      · rw [List.nil_append]
        exact matchCI_head_block ha X₂ h2
    | cons c t' =>
      by_cases hcc : myLowerN a.toNat = myLowerN c.toNat
      · rcases ih (fun x hx => hp x (List.mem_cons_of_mem a hx)) t' X₁ X₂ h1 h2 with
          ⟨hn1, hn2⟩ | ⟨q, r, htq, hm1, hm2⟩
        · left
          constructor
          · simp only [List.cons_append, matchCI, if_pos hcc, List.append_eq, hn1]
          · simp only [List.cons_append, matchCI, if_pos hcc, List.append_eq, hn2]
        · right
          refine ⟨c :: q, r, by rw [htq, List.cons_append], ?_, ?_⟩
          · simp only [List.cons_append, matchCI, if_pos hcc, List.append_eq, hm1]
          · simp only [List.cons_append, matchCI, if_pos hcc, List.append_eq, hm2]
      · left
        constructor
        · simp only [List.cons_append, matchCI, if_neg hcc]
        · simp only [List.cons_append, matchCI, if_neg hcc]

lemma blocky_probe : Blocky ['0', '"'] :=
  ⟨['0'], ['"'], rfl, by decide, Or.inr rfl⟩

lemma dropWhile_append_stop {pr : Char → Bool} :
    ∀ (r X : List Char), r.dropWhile pr ≠ [] →
      (r ++ X).dropWhile pr = r.dropWhile pr ++ X := by
  intro r
  induction r with
  | nil => intro X h; exact absurd rfl h
  | cons c r' ih =>
    intro X h
    by_cases hc : pr c = true
    · rw [List.dropWhile_cons] at h ⊢
      rw [if_pos hc] at h
      simp only [List.cons_append, List.dropWhile_cons, if_pos hc]
      exact ih X h
    · have hcf : pr c = false := by
        cases hcb : pr c
        · rfl
        · exact absurd hcb hc
      simp only [List.cons_append, List.dropWhile_cons, hcf, Bool.false_eq_true, if_false]

lemma dropWhile_append_through {pr : Char → Bool} :
    ∀ (r X : List Char), r.dropWhile pr = [] →
      (r ++ X).dropWhile pr = X.dropWhile pr := by
  intro r
  induction r with
  | nil => intro X _; rfl
  | cons c r' ih =>
    intro X h
    rw [List.dropWhile_cons] at h
    by_cases hc : pr c = true
    · rw [if_pos hc] at h
      simp only [List.cons_append, List.dropWhile_cons, if_pos hc]
      exact ih X h
    · rw [if_neg hc] at h
      cases h

lemma blocky_dropWhile_ws {X : List Char} (h : Blocky X) : X.dropWhile wsChar = X := by
  rcases blocky_head X h with rfl | ⟨c, X', rfl, hc⟩
  · rfl
  · rw [List.dropWhile_cons]
    have : wsChar c = false := by
      rcases hc with hd | rfl
      · exact digit_not_ws hd
      · decide
    simp [this]

lemma transferUrl (p : List Char) (hp : ∀ c ∈ p, isNameChar c) (t X : List Char)
    (hX : Blocky X)
    (hprobe : tryUrlMatchAt p (t ++ ['0', '"']) = none) :
    tryUrlMatchAt p (t ++ X) = none := by
  rcases matchCI_ext p hp t ['0', '"'] X blocky_probe hX with ⟨_, hn2⟩ |
    ⟨q, r, htq, hm1, hm2⟩
  · simp only [tryUrlMatchAt, hn2]
  · simp only [tryUrlMatchAt, hm1] at hprobe
    simp only [tryUrlMatchAt, hm2]
    cases hdr : r.dropWhile wsChar with
    | nil =>
      have hX0 : (r ++ X).dropWhile wsChar = X := by
        rw [dropWhile_append_through r X hdr, blocky_dropWhile_ws hX]
      rw [hX0]
      rcases blocky_head X hX with rfl | ⟨c, X', rfl, hc⟩
      · rfl
      · have hsep : ¬ (c = '=' ∨ c = ':') := by
          rcases hc with hd | rfl
          · rintro (rfl | rfl)
            · exact absurd hd (by decide)
            · exact absurd hd (by decide)
          · rintro (h' | h') <;> exact absurd h' (by decide)
        simp only [if_neg hsep]
    | cons sep r3 =>
      have hne : r.dropWhile wsChar ≠ [] := by rw [hdr]; simp
      have hs0 := dropWhile_append_stop r ['0', '"'] hne
      have hsX := dropWhile_append_stop r X hne
      rw [hs0, hdr] at hprobe
      rw [hsX, hdr]
      simp only [List.cons_append] at hprobe ⊢
      by_cases hsep : sep = '=' ∨ sep = ':'
      · rw [if_pos hsep] at hprobe ⊢
        cases hdr3 : r3.dropWhile wsChar with
        | nil =>
          exfalso
          rw [dropWhile_append_through r3 ['0', '"'] hdr3] at hprobe
          have hd0 : List.dropWhile wsChar ['0', '"'] = ['0', '"'] := by decide
          have ht0 : List.takeWhile isValC ['0', '"'] = ['0'] := by decide
          rw [hd0, ht0] at hprobe
          simp at hprobe
        | cons u r4 =>
          have hne3 : r3.dropWhile wsChar ≠ [] := by rw [hdr3]; simp
          rw [dropWhile_append_stop r3 ['0', '"'] hne3, hdr3] at hprobe
          rw [dropWhile_append_stop r3 X hne3, hdr3]
          simp only [List.cons_append] at hprobe ⊢
          by_cases hu : isValC u = true
          · exfalso
            rw [List.takeWhile_cons, if_pos hu] at hprobe
            simp at hprobe
          · have huf : isValC u = false := by
              cases hub : isValC u
              · rfl
              · exact absurd hub hu
            rw [List.takeWhile_cons, huf] at hprobe ⊢
            simp at hprobe ⊢
      · rw [if_neg hsep] at hprobe ⊢

lemma blocky_head3 (X : List Char) (h : Blocky X) :
    X = [] ∨ X = ['"'] ∨ ∃ c X', X = c :: X' ∧ isDigitC c = true := by
  obtain ⟨ds, q, rfl, hds, hq⟩ := h
  cases ds with
  | nil =>
    rcases hq with rfl | rfl
    · exact Or.inl rfl
    · exact Or.inr (Or.inl rfl)
  | cons d ds' =>
    exact Or.inr (Or.inr ⟨d, ds' ++ q, rfl, hds d (List.mem_cons_self d ds')⟩)

lemma transferJson (p : List Char) (hpne : p ≠ []) (hp : ∀ c ∈ p, isNameChar c)
    (t X : List Char) (hX : Blocky X)
    (hprobe : tryJsonMatchAt p (t ++ ['0', '"']) = none) :
    tryJsonMatchAt p (t ++ X) = none := by
  cases t with
  | nil =>
    rcases blocky_head3 X hX with rfl | rfl | ⟨d, X', rfl, hd⟩
    · rfl
    · simp only [List.nil_append, tryJsonMatchAt, if_pos rfl]
      cases p with
      | nil => exact absurd rfl hpne
      | cons a as => rfl
    · simp only [List.nil_append, tryJsonMatchAt]
      rw [if_neg (digit_ne_char hd (by decide))]
  | cons c t' =>
    simp only [List.cons_append, tryJsonMatchAt] at hprobe ⊢
    by_cases hc : c = '"'
    · rw [if_pos hc] at hprobe ⊢
      rcases matchCI_ext p hp t' ['0', '"'] X blocky_probe hX with ⟨_, hn2⟩ |
        ⟨q, r, htq, hm1, hm2⟩
      · rw [hn2]
      · rw [hm1] at hprobe
        rw [hm2]
        cases r with
        | nil =>
          simp only [List.nil_append] at hprobe ⊢
          rcases blocky_head3 X hX with rfl | rfl | ⟨d, X', rfl, hd⟩
          · rfl
          · simp [List.dropWhile, List.takeWhile]
          · have hne : ¬ (d = '"') := digit_ne_char hd (by decide)
            simp [hne]
        | cons c2 r' =>
          simp only [List.cons_append] at hprobe ⊢
          by_cases hc2 : c2 = '"'
          · rw [if_pos hc2] at hprobe ⊢
            cases hdr : r'.dropWhile wsChar with
            | nil =>
              rw [dropWhile_append_through r' _ hdr] at hprobe
              rw [dropWhile_append_through r' X hdr, blocky_dropWhile_ws hX]
              rcases blocky_head3 X hX with rfl | rfl | ⟨d, X', rfl, hd⟩
              · rfl
              · have hne : ¬ (('"' : Char) = ':') := by decide
                simp [hne]
              · have hne : ¬ (d = ':') := digit_ne_char hd (by decide)
                simp [hne]
            | cons c3 r4 =>
              have hne' : r'.dropWhile wsChar ≠ [] := by rw [hdr]; simp
              rw [dropWhile_append_stop r' _ hne', hdr] at hprobe
              rw [dropWhile_append_stop r' X hne', hdr]
              simp only [List.cons_append] at hprobe ⊢
              by_cases hc3 : c3 = ':'
              · rw [if_pos hc3] at hprobe ⊢
                cases hdr4 : r4.dropWhile wsChar with
                | nil =>
                  rw [dropWhile_append_through r4 _ hdr4] at hprobe
                  rw [dropWhile_append_through r4 X hdr4, blocky_dropWhile_ws hX]
                  rcases blocky_head3 X hX with rfl | rfl | ⟨d, X', rfl, hd⟩
                  · rfl
                  · simp [List.dropWhile]
                  · have hne : ¬ (d = '"') := digit_ne_char hd (by decide)
                    simp [hne]
                | cons c4 r6 =>
                  have hne4 : r4.dropWhile wsChar ≠ [] := by rw [hdr4]; simp
                  rw [dropWhile_append_stop r4 _ hne4, hdr4] at hprobe
                  rw [dropWhile_append_stop r4 X hne4, hdr4]
                  simp only [List.cons_append] at hprobe ⊢
                  by_cases hc4 : c4 = '"'
                  · rw [if_pos hc4] at hprobe ⊢
                    cases hdv : r6.dropWhile (fun ch => ¬ (ch = '"')) with
                    | nil =>
                      exfalso
                      rw [dropWhile_append_through r6 _ hdv] at hprobe
                      have hq0 : List.dropWhile (fun ch => ¬ (ch = '"')) ['0', '"']
                          = ['"'] := by decide
                      rw [hq0] at hprobe
                      simp at hprobe
                    | cons c5 r8 =>
                      have hnev : r6.dropWhile (fun ch => ¬ (ch = '"')) ≠ [] := by
                        rw [hdv]; simp
                      rw [dropWhile_append_stop r6 _ hnev, hdv] at hprobe
                      rw [dropWhile_append_stop r6 X hnev, hdv]
                      simp only [List.cons_append] at hprobe ⊢
                      by_cases hc5 : c5 = '"'
                      · exfalso
                        rw [if_pos hc5] at hprobe
                        simp at hprobe
                      · rw [if_neg hc5] at hprobe ⊢
                  · rw [if_neg hc4] at hprobe ⊢
              · rw [if_neg hc3] at hprobe ⊢
          · rw [if_neg hc2] at hprobe ⊢
    · rw [if_neg hc] at hprobe ⊢

def urlProbe (p pre : List Char) : Bool :=
  pre.tails.all (fun t => (tryUrlMatchAt p (t ++ ['0', '"'])).isNone)

def jsonProbe (p pre : List Char) : Bool :=
  pre.tails.all (fun t => (tryJsonMatchAt p (t ++ ['0', '"'])).isNone)

lemma urlProbe_cons {p : List Char} {c : Char} {pre' : List Char}
    (h : urlProbe p (c :: pre') = true) :
    tryUrlMatchAt p ((c :: pre') ++ ['0', '"']) = none ∧ urlProbe p pre' = true := by
  simp only [urlProbe, List.tails_cons, List.all_cons, Bool.and_eq_true,
    Option.isNone_iff_eq_none] at h ⊢
  exact h

lemma jsonProbe_cons {p : List Char} {c : Char} {pre' : List Char}
    (h : jsonProbe p (c :: pre') = true) :
    tryJsonMatchAt p ((c :: pre') ++ ['0', '"']) = none ∧ jsonProbe p pre' = true := by
  simp only [jsonProbe, List.tails_cons, List.all_cons, Bool.and_eq_true,
    Option.isNone_iff_eq_none] at h ⊢
  exact h

lemma tryUrl_digit_head {p : List Char} (hpne : p ≠ []) (hp : ∀ c ∈ p, isNameChar c)
    {d : Char} (hd : isDigitC d = true) (rest : List Char) :
    tryUrlMatchAt p (d :: rest) = none := by
  cases p with
  | nil => exact absurd rfl hpne
  | cons a as =>
    have hm : matchCI (a :: as) (d :: rest) = none := by
      simp only [matchCI]
      rw [if_neg (nameChar_ne_digit (hp a (List.mem_cons_self a as)) hd)]
    simp only [tryUrlMatchAt, hm]

lemma tryUrl_quote_head {p : List Char} (hpne : p ≠ []) (hp : ∀ c ∈ p, isNameChar c)
    (rest : List Char) : tryUrlMatchAt p ('"' :: rest) = none := by
  cases p with
  | nil => exact absurd rfl hpne
  | cons a as =>
    have hm : matchCI (a :: as) ('"' :: rest) = none := by
      simp only [matchCI]
      rw [if_neg (nameChar_ne_quote (hp a (List.mem_cons_self a as)))]
    simp only [tryUrlMatchAt, hm]

lemma tryJson_digit_head {p : List Char} {d : Char} (hd : isDigitC d = true)
    (rest : List Char) : tryJsonMatchAt p (d :: rest) = none := by
  simp only [tryJsonMatchAt]
  rw [if_neg (digit_ne_char hd (by decide))]

lemma tryJson_lone_quote {p : List Char} (hpne : p ≠ []) :
    tryJsonMatchAt p ['"'] = none := by
  cases p with
  | nil => exact absurd rfl hpne
  | cons a as => rfl

lemma subUrlGo_id_tail (p : List Char) (hpne : p ≠ []) (hp : ∀ c ∈ p, isNameChar c) :
    ∀ (v post : List Char) (f : Nat), (∀ c ∈ v, isDigitC c = true) →
      (post = [] ∨ post = ['"']) → (v ++ post).length ≤ f →
      subUrlGo p f (v ++ post) = v ++ post := by
  intro v
  induction v with
  | nil =>
    intro post f _ hpost hf
    rcases hpost with rfl | rfl
    · exact subUrlGo_nil p f
    · obtain ⟨f', rfl⟩ : ∃ f', f = f' + 1 := by
        cases f with
        | zero => simp at hf
        | succ f' => exact ⟨f', rfl⟩
      rw [List.nil_append,
        subUrlGo_step_none p f' '"' [] (tryUrl_quote_head hpne hp []), subUrlGo_nil]
  | cons d v' ih =>
    intro post f hv hpost hf
    obtain ⟨f', rfl⟩ : ∃ f', f = f' + 1 := by
      cases f with
      | zero => simp at hf
      | succ f' => exact ⟨f', rfl⟩
    have hd : isDigitC d = true := hv d (List.mem_cons_self d v')
    rw [List.cons_append,
      subUrlGo_step_none p f' d _ (tryUrl_digit_head hpne hp hd _),
      ih post f' (fun x hx => hv x (List.mem_cons_of_mem d hx)) hpost (by
        simp only [List.cons_append, List.length_cons] at hf
        omega)]

lemma subJsonGo_id_tail (p : List Char) (hpne : p ≠ []) :
    ∀ (v post : List Char) (f : Nat), (∀ c ∈ v, isDigitC c = true) →
      (post = [] ∨ post = ['"']) → (v ++ post).length ≤ f →
      subJsonGo p f (v ++ post) = v ++ post := by
  intro v
  induction v with
  | nil =>
    intro post f _ hpost hf
    rcases hpost with rfl | rfl
    · exact subJsonGo_nil p f
    · obtain ⟨f', rfl⟩ : ∃ f', f = f' + 1 := by
        cases f with
        | zero => simp at hf
        | succ f' => exact ⟨f', rfl⟩
      rw [List.nil_append,
        subJsonGo_step_none p f' '"' [] (tryJson_lone_quote hpne), subJsonGo_nil]
  | cons d v' ih =>
    intro post f hv hpost hf
    obtain ⟨f', rfl⟩ : ∃ f', f = f' + 1 := by
      cases f with
      | zero => simp at hf
      | succ f' => exact ⟨f', rfl⟩
    have hd : isDigitC d = true := hv d (List.mem_cons_self d v')
    rw [List.cons_append,
      subJsonGo_step_none p f' d _ (tryJson_digit_head hd _),
      ih post f' (fun x hx => hv x (List.mem_cons_of_mem d hx)) hpost (by
        simp only [List.cons_append, List.length_cons] at hf
        omega)]

lemma subUrlGo_id (p : List Char) (hpne : p ≠ []) (hp : ∀ c ∈ p, isNameChar c) :
    ∀ (pre v post : List Char) (f : Nat), urlProbe p pre = true →
      (∀ c ∈ v, isDigitC c = true) → (post = [] ∨ post = ['"']) →
      (pre ++ (v ++ post)).length ≤ f →
      subUrlGo p f (pre ++ (v ++ post)) = pre ++ (v ++ post) := by
  intro pre
  induction pre with
  | nil =>
    intro v post f _ hv hpost hf
    rw [List.nil_append] at hf ⊢
    exact subUrlGo_id_tail p hpne hp v post f hv hpost hf
  | cons c pre' ih =>
    intro v post f hprobe hv hpost hf
    obtain ⟨f', rfl⟩ : ∃ f', f = f' + 1 := by
      cases f with
      | zero => simp at hf
      | succ f' => exact ⟨f', rfl⟩
    obtain ⟨hhead, htail⟩ := urlProbe_cons hprobe
    have hX : Blocky (v ++ post) := ⟨v, post, rfl, hv, hpost⟩
    have hnone := transferUrl p hp (c :: pre') (v ++ post) hX hhead
    rw [List.cons_append] at hnone
    rw [List.cons_append,
      subUrlGo_step_none p f' c _ hnone,
      ih v post f' htail hv hpost (by
        simp only [List.cons_append, List.length_cons] at hf
        omega)]

lemma subJsonGo_id (p : List Char) (hpne : p ≠ []) (hp : ∀ c ∈ p, isNameChar c) :
    ∀ (pre v post : List Char) (f : Nat), jsonProbe p pre = true →
      (∀ c ∈ v, isDigitC c = true) → (post = [] ∨ post = ['"']) →
      (pre ++ (v ++ post)).length ≤ f →
      subJsonGo p f (pre ++ (v ++ post)) = pre ++ (v ++ post) := by
  intro pre
  induction pre with
  | nil =>
    intro v post f _ hv hpost hf
    rw [List.nil_append] at hf ⊢
    exact subJsonGo_id_tail p hpne v post f hv hpost hf
  | cons c pre' ih =>
    intro v post f hprobe hv hpost hf
    obtain ⟨f', rfl⟩ : ∃ f', f = f' + 1 := by
      cases f with
      | zero => simp at hf
      | succ f' => exact ⟨f', rfl⟩
    obtain ⟨hhead, htail⟩ := jsonProbe_cons hprobe
    have hX : Blocky (v ++ post) := ⟨v, post, rfl, hv, hpost⟩
    have hnone := transferJson p hpne hp (c :: pre') (v ++ post) hX hhead
    rw [List.cons_append] at hnone
    rw [List.cons_append,
      subJsonGo_step_none p f' c _ hnone,
      ih v post f' htail hv hpost (by
        simp only [List.cons_append, List.length_cons] at hf
        omega)]

lemma subUrl_id_parts (p : List Char) (hpne : p ≠ []) (hp : ∀ c ∈ p, isNameChar c)
    (pre v post : List Char) (hprobe : urlProbe p pre = true)
    (hv : ∀ c ∈ v, isDigitC c = true) (hpost : post = [] ∨ post = ['"']) :
    subUrl p (pre ++ (v ++ post)) = pre ++ (v ++ post) :=
  subUrlGo_id p hpne hp pre v post _ hprobe hv hpost (Nat.le_refl _)

lemma subJson_id_parts (p : List Char) (hpne : p ≠ []) (hp : ∀ c ∈ p, isNameChar c)
    (pre v post : List Char) (hprobe : jsonProbe p pre = true)
    (hv : ∀ c ∈ v, isDigitC c = true) (hpost : post = [] ∨ post = ['"']) :
    subJson p (pre ++ (v ++ post)) = pre ++ (v ++ post) :=
  subJsonGo_id p hpne hp pre v post _ hprobe hv hpost (Nat.le_refl _)

lemma matchCI_self : ∀ (p rest : List Char), matchCI p (p ++ rest) = some (p, rest) := by
  intro p
  induction p with
  | nil => intro rest; rfl
  | cons a as ih =>
    intro rest
    simp [List.cons_append, matchCI, ih]

lemma subUrlGo_step_some' (p : List Char) (f : Nat) (s kept rem : List Char)
    (hs : s ≠ []) (h : tryUrlMatchAt p s = some (kept, rem)) :
    subUrlGo p (f + 1) s = kept ++ '*' :: '*' :: '*' :: subUrlGo p f rem := by
  cases s with
  | nil => exact absurd rfl hs
  | cons c rest => exact subUrlGo_step_some p f c rest kept rem h

lemma subJsonGo_step_some' (p : List Char) (f : Nat) (s kept rem : List Char)
    (hs : s ≠ []) (h : tryJsonMatchAt p s = some (kept, rem)) :
    subJsonGo p (f + 1) s = kept ++ '*' :: '*' :: '*' :: '"' :: subJsonGo p f rem := by
  cases s with
  | nil => exact absurd rfl hs
  | cons c rest => exact subJsonGo_step_some p f c rest kept rem h

lemma tryUrl_match_plain (p v : List Char) (hv : ∀ c ∈ v, isDigitC c = true)
    (hvne : v ≠ []) :
    tryUrlMatchAt p (p ++ ('=' :: v)) = some (p ++ [] ++ ('=' :: []), []) := by
  obtain ⟨d, v', rfl⟩ : ∃ d v', v = d :: v' := by
    cases v with
    | nil => exact absurd rfl hvne
    | cons d v' => exact ⟨d, v', rfl⟩
  have hd : isDigitC d = true := hv d (List.mem_cons_self d v')
  have hwse : wsChar '=' = false := by decide
  have hwsd : wsChar d = false := digit_not_ws hd
  have hall : ∀ c ∈ d :: v', isValC c = true := fun c hc => digit_isVal (hv c hc)
  have hsep : ('=' : Char) = '=' ∨ ('=' : Char) = ':' := Or.inl rfl
  simp only [tryUrlMatchAt, matchCI_self]
  simp [List.takeWhile_cons, List.dropWhile_cons, hwse, hwsd, hsep,
    List.takeWhile_eq_self_iff.mpr hall, List.dropWhile_eq_nil_iff.mpr hall]

lemma subUrlGo_match (p v : List Char) (hv : ∀ c ∈ v, isDigitC c = true)
    (hvne : v ≠ []) (f : Nat) (hf : 1 ≤ f) :
    subUrlGo p f (p ++ ('=' :: v)) = p ++ ('=' :: star3) := by
  obtain ⟨f', rfl⟩ : ∃ f', f = f' + 1 := by
    cases f with
    | zero => omega
    | succ f' => exact ⟨f', rfl⟩
  rw [subUrlGo_step_some' p f' _ _ _ (by simp) (tryUrl_match_plain p v hv hvne),
    subUrlGo_nil]
  simp [star3]

lemma subUrl_fuel_pos (p v : List Char) : 1 ≤ (p ++ ('=' :: v)).length := by
  simp only [List.length_append, List.length_cons]
  omega

lemma subUrl_match_plain (p v : List Char) (hv : ∀ c ∈ v, isDigitC c = true)
    (hvne : v ≠ []) : subUrl p (p ++ ('=' :: v)) = p ++ ('=' :: star3) := by
  unfold subUrl
  exact subUrlGo_match p v hv hvne _ (subUrl_fuel_pos p v)

lemma tryUrl_head_mismatch (a : Char) (as : List Char) (c : Char) (rest : List Char)
    (h : ¬ (myLowerN a.toNat = myLowerN c.toNat)) :
    tryUrlMatchAt (a :: as) (c :: rest) = none := by
  have hm : matchCI (a :: as) (c :: rest) = none := by
    simp only [matchCI, if_neg h]
  simp only [tryUrlMatchAt, hm]

lemma subUrl_match_pre2 (p : List Char) (c1 c2 : Char) (v : List Char)
    (h1 : tryUrlMatchAt p (c1 :: c2 :: (p ++ ('=' :: v))) = none)
    (h2 : tryUrlMatchAt p (c2 :: (p ++ ('=' :: v))) = none)
    (hv : ∀ c ∈ v, isDigitC c = true) (hvne : v ≠ []) :
    subUrl p (c1 :: c2 :: (p ++ ('=' :: v))) = c1 :: c2 :: (p ++ ('=' :: star3)) := by
  unfold subUrl
  rw [List.length_cons, List.length_cons]
  rw [subUrlGo_step_none p _ c1 _ h1]
  rw [subUrlGo_step_none p _ c2 _ h2]
  rw [subUrlGo_match p v hv hvne _ (subUrl_fuel_pos p v)]

lemma tryJson_match_plain (p v : List Char) (hpne : p ≠ [])
    (hv : ∀ c ∈ v, isDigitC c = true) :
    tryJsonMatchAt p ('"' :: (p ++ ('"' :: ':' :: '"' :: (v ++ ['"']))))
      = some (('"' :: p) ++ ('"' :: []) ++ (':' :: []) ++ ['"'], []) := by
  have hwsc : wsChar ':' = false := by decide
  have hwsq : wsChar '"' = false := by decide
  have hvq : ∀ c ∈ v, (fun ch => ¬ (ch = '"') : Char → Bool) c = true := by
    intro c hc
    simp only [decide_eq_true_eq]
    exact digit_ne_char (hv c hc) (by decide)
  have hdv : (v ++ ['"']).dropWhile (fun ch => ¬ (ch = '"')) = ['"'] := by
    rw [dropWhile_append_through v ['"'] (List.dropWhile_eq_nil_iff.mpr hvq)]
    decide
  simp only [tryJsonMatchAt, if_pos rfl, matchCI_self, List.takeWhile_cons,
    List.dropWhile_cons, hwsc, hwsq, Bool.false_eq_true, if_false, hdv]
  simp

lemma subJson_match_plain (p v : List Char) (hpne : p ≠ [])
    (hv : ∀ c ∈ v, isDigitC c = true) :
    subJson p ('"' :: (p ++ ('"' :: ':' :: '"' :: (v ++ ['"']))))
      = '"' :: (p ++ ('"' :: ':' :: '"' :: ('*' :: '*' :: '*' :: '"' :: []))) := by
  unfold subJson
  rw [List.length_cons]
  rw [subJsonGo_step_some p _ '"' _ _ _ (tryJson_match_plain p v hpne hv),
    subJsonGo_nil]
  simp

lemma sanitizeText_unfold (s : List Char) :
    sanitizeText true s = subJson aeskeyChars (subJson signatureChars (subJson deviceidChars (subJson sidChars (subJson skeyChars (subJson webwxTicketChars (subJson passTicketChars (subUrl signatureChars (subUrl aeskeyChars (subUrl uinChars (subUrl deviceidChars (subUrl wxsidChars (subUrl sidChars (subUrl skeyChars (subUrl webwxTicketChars (subUrl passTicketChars s))))))))))))))) := by
  show (if (true = false) then _ else _) = _
  rw [if_neg (by decide)]
  simp only [urlNames, jsonNames, List.foldl_cons, List.foldl_nil]

lemma urlRedact_pass (v : List Char) (hv : ∀ c ∈ v, isDigitC c = true)
    (hvne : v ≠ []) :
    sanitizeText true (passTicketChars ++ ('=' :: v)) = passTicketChars ++ ('=' :: star3) := by
  have hsh : passTicketChars ++ ('=' :: v) = (passTicketChars ++ ['=']) ++ (v ++ []) := by simp
  rw [sanitizeText_unfold, hsh]
  rw [← hsh, subUrl_match_plain passTicketChars v hv hvne]
  decide

lemma urlRedact_webwx (v : List Char) (hv : ∀ c ∈ v, isDigitC c = true)
    (hvne : v ≠ []) :
    sanitizeText true (webwxTicketChars ++ ('=' :: v)) = webwxTicketChars ++ ('=' :: star3) := by
  have hsh : webwxTicketChars ++ ('=' :: v) = (webwxTicketChars ++ ['=']) ++ (v ++ []) := by simp
  rw [sanitizeText_unfold, hsh]
  rw [subUrl_id_parts passTicketChars (by decide) (by decide) (webwxTicketChars ++ ['=']) v []
    (by decide) hv (Or.inl rfl)]
  rw [← hsh, subUrl_match_plain webwxTicketChars v hv hvne]
  decide

lemma urlRedact_skey (v : List Char) (hv : ∀ c ∈ v, isDigitC c = true)
    (hvne : v ≠ []) :
    sanitizeText true (skeyChars ++ ('=' :: v)) = skeyChars ++ ('=' :: star3) := by
  have hsh : skeyChars ++ ('=' :: v) = (skeyChars ++ ['=']) ++ (v ++ []) := by simp
  rw [sanitizeText_unfold, hsh]
  rw [subUrl_id_parts passTicketChars (by decide) (by decide) (skeyChars ++ ['=']) v []
    (by decide) hv (Or.inl rfl)]
  rw [subUrl_id_parts webwxTicketChars (by decide) (by decide) (skeyChars ++ ['=']) v []
    (by decide) hv (Or.inl rfl)]
  rw [← hsh, subUrl_match_plain skeyChars v hv hvne]
  decide

lemma urlRedact_sid (v : List Char) (hv : ∀ c ∈ v, isDigitC c = true)
    (hvne : v ≠ []) :
    sanitizeText true (sidChars ++ ('=' :: v)) = sidChars ++ ('=' :: star3) := by
  have hsh : sidChars ++ ('=' :: v) = (sidChars ++ ['=']) ++ (v ++ []) := by simp
  rw [sanitizeText_unfold, hsh]
  rw [subUrl_id_parts passTicketChars (by decide) (by decide) (sidChars ++ ['=']) v []
    (by decide) hv (Or.inl rfl)]
  rw [subUrl_id_parts webwxTicketChars (by decide) (by decide) (sidChars ++ ['=']) v []
    (by decide) hv (Or.inl rfl)]
  rw [subUrl_id_parts skeyChars (by decide) (by decide) (sidChars ++ ['=']) v []
    (by decide) hv (Or.inl rfl)]
  rw [← hsh, subUrl_match_plain sidChars v hv hvne]
  decide

lemma urlRedact_wxsid (v : List Char) (hv : ∀ c ∈ v, isDigitC c = true)
    (hvne : v ≠ []) :
    sanitizeText true (wxsidChars ++ ('=' :: v)) = wxsidChars ++ ('=' :: star3) := by
  have hsh : wxsidChars ++ ('=' :: v) = (wxsidChars ++ ['=']) ++ (v ++ []) := by simp
  rw [sanitizeText_unfold, hsh]
  rw [subUrl_id_parts passTicketChars (by decide) (by decide) (wxsidChars ++ ['=']) v []
    (by decide) hv (Or.inl rfl)]
  rw [subUrl_id_parts webwxTicketChars (by decide) (by decide) (wxsidChars ++ ['=']) v []
    (by decide) hv (Or.inl rfl)]
  rw [subUrl_id_parts skeyChars (by decide) (by decide) (wxsidChars ++ ['=']) v []
    (by decide) hv (Or.inl rfl)]
  have hsh2 : wxsidChars ++ ('=' :: v) = 'w' :: 'x' :: (sidChars ++ ('=' :: v)) := by
    simp [wxsidChars, sidChars]
  rw [← hsh, hsh2]
  rw [subUrl_match_pre2 sidChars 'w' 'x' v
    (by exact tryUrl_head_mismatch 's' ['i', 'd'] 'w' _ (by decide))
    (by exact tryUrl_head_mismatch 's' ['i', 'd'] 'x' _ (by decide)) hv hvne]
  decide

lemma urlRedact_deviceid (v : List Char) (hv : ∀ c ∈ v, isDigitC c = true)
    (hvne : v ≠ []) :
    sanitizeText true (deviceidChars ++ ('=' :: v)) = deviceidChars ++ ('=' :: star3) := by
  have hsh : deviceidChars ++ ('=' :: v) = (deviceidChars ++ ['=']) ++ (v ++ []) := by simp
  rw [sanitizeText_unfold, hsh]
  rw [subUrl_id_parts passTicketChars (by decide) (by decide) (deviceidChars ++ ['=']) v []
    (by decide) hv (Or.inl rfl)]
  rw [subUrl_id_parts webwxTicketChars (by decide) (by decide) (deviceidChars ++ ['=']) v []
    (by decide) hv (Or.inl rfl)]
  rw [subUrl_id_parts skeyChars (by decide) (by decide) (deviceidChars ++ ['=']) v []
    (by decide) hv (Or.inl rfl)]
  rw [subUrl_id_parts sidChars (by decide) (by decide) (deviceidChars ++ ['=']) v []
    (by decide) hv (Or.inl rfl)]
  rw [subUrl_id_parts wxsidChars (by decide) (by decide) (deviceidChars ++ ['=']) v []
    (by decide) hv (Or.inl rfl)]
  rw [← hsh, subUrl_match_plain deviceidChars v hv hvne]
  decide

lemma urlRedact_uin (v : List Char) (hv : ∀ c ∈ v, isDigitC c = true)
    (hvne : v ≠ []) :
    sanitizeText true (uinChars ++ ('=' :: v)) = uinChars ++ ('=' :: star3) := by
  have hsh : uinChars ++ ('=' :: v) = (uinChars ++ ['=']) ++ (v ++ []) := by simp
  rw [sanitizeText_unfold, hsh]
  rw [subUrl_id_parts passTicketChars (by decide) (by decide) (uinChars ++ ['=']) v []
    (by decide) hv (Or.inl rfl)]
  rw [subUrl_id_parts webwxTicketChars (by decide) (by decide) (uinChars ++ ['=']) v []
    (by decide) hv (Or.inl rfl)]
  rw [subUrl_id_parts skeyChars (by decide) (by decide) (uinChars ++ ['=']) v []
    (by decide) hv (Or.inl rfl)]
  rw [subUrl_id_parts sidChars (by decide) (by decide) (uinChars ++ ['=']) v []
    (by decide) hv (Or.inl rfl)]
  rw [subUrl_id_parts wxsidChars (by decide) (by decide) (uinChars ++ ['=']) v []
    (by decide) hv (Or.inl rfl)]
  rw [subUrl_id_parts deviceidChars (by decide) (by decide) (uinChars ++ ['=']) v []
    (by decide) hv (Or.inl rfl)]
  rw [← hsh, subUrl_match_plain uinChars v hv hvne]
  decide

lemma urlRedact_aeskey (v : List Char) (hv : ∀ c ∈ v, isDigitC c = true)
    (hvne : v ≠ []) :
    sanitizeText true (aeskeyChars ++ ('=' :: v)) = aeskeyChars ++ ('=' :: star3) := by
  have hsh : aeskeyChars ++ ('=' :: v) = (aeskeyChars ++ ['=']) ++ (v ++ []) := by simp
  rw [sanitizeText_unfold, hsh]
  rw [subUrl_id_parts passTicketChars (by decide) (by decide) (aeskeyChars ++ ['=']) v []
    (by decide) hv (Or.inl rfl)]
  rw [subUrl_id_parts webwxTicketChars (by decide) (by decide) (aeskeyChars ++ ['=']) v []
    (by decide) hv (Or.inl rfl)]
  have hsh2 : aeskeyChars ++ ('=' :: v) = 'a' :: 'e' :: (skeyChars ++ ('=' :: v)) := by
    simp [aeskeyChars, skeyChars]
  rw [← hsh, hsh2]
  rw [subUrl_match_pre2 skeyChars 'a' 'e' v
    (by exact tryUrl_head_mismatch 's' ['k', 'e', 'y'] 'a' _ (by decide))
    (by exact tryUrl_head_mismatch 's' ['k', 'e', 'y'] 'e' _ (by decide)) hv hvne]
  decide

lemma urlRedact_signature (v : List Char) (hv : ∀ c ∈ v, isDigitC c = true)
    (hvne : v ≠ []) :
    sanitizeText true (signatureChars ++ ('=' :: v)) = signatureChars ++ ('=' :: star3) := by
  have hsh : signatureChars ++ ('=' :: v) = (signatureChars ++ ['=']) ++ (v ++ []) := by simp
  rw [sanitizeText_unfold, hsh]
  rw [subUrl_id_parts passTicketChars (by decide) (by decide) (signatureChars ++ ['=']) v []
    (by decide) hv (Or.inl rfl)]
  rw [subUrl_id_parts webwxTicketChars (by decide) (by decide) (signatureChars ++ ['=']) v []
    (by decide) hv (Or.inl rfl)]
  rw [subUrl_id_parts skeyChars (by decide) (by decide) (signatureChars ++ ['=']) v []
    (by decide) hv (Or.inl rfl)]
  rw [subUrl_id_parts sidChars (by decide) (by decide) (signatureChars ++ ['=']) v []
    (by decide) hv (Or.inl rfl)]
  rw [subUrl_id_parts wxsidChars (by decide) (by decide) (signatureChars ++ ['=']) v []
    (by decide) hv (Or.inl rfl)]
  rw [subUrl_id_parts deviceidChars (by decide) (by decide) (signatureChars ++ ['=']) v []
    (by decide) hv (Or.inl rfl)]
  rw [subUrl_id_parts uinChars (by decide) (by decide) (signatureChars ++ ['=']) v []
    (by decide) hv (Or.inl rfl)]
  rw [subUrl_id_parts aeskeyChars (by decide) (by decide) (signatureChars ++ ['=']) v []
    (by decide) hv (Or.inl rfl)]
  rw [← hsh, subUrl_match_plain signatureChars v hv hvne]
  decide

lemma jsonRedact_pass (v : List Char) (hv : ∀ c ∈ v, isDigitC c = true) :
    sanitizeText true ('"' :: (passTicketChars ++ ('"' :: ':' :: '"' :: (v ++ ['"']))))
      = '"' :: (passTicketChars ++ ('"' :: ':' :: '"' :: ('*' :: '*' :: '*' :: '"' :: []))) := by
  have hsh : '"' :: (passTicketChars ++ ('"' :: ':' :: '"' :: (v ++ ['"'])))
      = (('"' :: passTicketChars) ++ ['"', ':', '"']) ++ (v ++ ['"']) := by simp
  rw [sanitizeText_unfold, hsh]
  rw [subUrl_id_parts passTicketChars (by decide) (by decide) (('"' :: passTicketChars) ++ ['"', ':', '"'])
    v ['"'] (by decide) hv (Or.inr rfl)]
  rw [subUrl_id_parts webwxTicketChars (by decide) (by decide) (('"' :: passTicketChars) ++ ['"', ':', '"'])
    v ['"'] (by decide) hv (Or.inr rfl)]
  rw [subUrl_id_parts skeyChars (by decide) (by decide) (('"' :: passTicketChars) ++ ['"', ':', '"'])
    v ['"'] (by decide) hv (Or.inr rfl)]
  rw [subUrl_id_parts sidChars (by decide) (by decide) (('"' :: passTicketChars) ++ ['"', ':', '"'])
    v ['"'] (by decide) hv (Or.inr rfl)]
  rw [subUrl_id_parts wxsidChars (by decide) (by decide) (('"' :: passTicketChars) ++ ['"', ':', '"'])
    v ['"'] (by decide) hv (Or.inr rfl)]
  rw [subUrl_id_parts deviceidChars (by decide) (by decide) (('"' :: passTicketChars) ++ ['"', ':', '"'])
    v ['"'] (by decide) hv (Or.inr rfl)]
  rw [subUrl_id_parts uinChars (by decide) (by decide) (('"' :: passTicketChars) ++ ['"', ':', '"'])
    v ['"'] (by decide) hv (Or.inr rfl)]
  rw [subUrl_id_parts aeskeyChars (by decide) (by decide) (('"' :: passTicketChars) ++ ['"', ':', '"'])
    v ['"'] (by decide) hv (Or.inr rfl)]
  rw [subUrl_id_parts signatureChars (by decide) (by decide) (('"' :: passTicketChars) ++ ['"', ':', '"'])
    v ['"'] (by decide) hv (Or.inr rfl)]
  rw [← hsh, subJson_match_plain passTicketChars v (by decide) hv]
  decide

lemma jsonRedact_webwx (v : List Char) (hv : ∀ c ∈ v, isDigitC c = true) :
    sanitizeText true ('"' :: (webwxTicketChars ++ ('"' :: ':' :: '"' :: (v ++ ['"']))))
      = '"' :: (webwxTicketChars ++ ('"' :: ':' :: '"' :: ('*' :: '*' :: '*' :: '"' :: []))) := by
  have hsh : '"' :: (webwxTicketChars ++ ('"' :: ':' :: '"' :: (v ++ ['"'])))
      = (('"' :: webwxTicketChars) ++ ['"', ':', '"']) ++ (v ++ ['"']) := by simp
  rw [sanitizeText_unfold, hsh]
  rw [subUrl_id_parts passTicketChars (by decide) (by decide) (('"' :: webwxTicketChars) ++ ['"', ':', '"'])
    v ['"'] (by decide) hv (Or.inr rfl)]
  rw [subUrl_id_parts webwxTicketChars (by decide) (by decide) (('"' :: webwxTicketChars) ++ ['"', ':', '"'])
    v ['"'] (by decide) hv (Or.inr rfl)]
  rw [subUrl_id_parts skeyChars (by decide) (by decide) (('"' :: webwxTicketChars) ++ ['"', ':', '"'])
    v ['"'] (by decide) hv (Or.inr rfl)]
  rw [subUrl_id_parts sidChars (by decide) (by decide) (('"' :: webwxTicketChars) ++ ['"', ':', '"'])
    v ['"'] (by decide) hv (Or.inr rfl)]
  rw [subUrl_id_parts wxsidChars (by decide) (by decide) (('"' :: webwxTicketChars) ++ ['"', ':', '"'])
    v ['"'] (by decide) hv (Or.inr rfl)]
  rw [subUrl_id_parts deviceidChars (by decide) (by decide) (('"' :: webwxTicketChars) ++ ['"', ':', '"'])
    v ['"'] (by decide) hv (Or.inr rfl)]
  rw [subUrl_id_parts uinChars (by decide) (by decide) (('"' :: webwxTicketChars) ++ ['"', ':', '"'])
    v ['"'] (by decide) hv (Or.inr rfl)]
  rw [subUrl_id_parts aeskeyChars (by decide) (by decide) (('"' :: webwxTicketChars) ++ ['"', ':', '"'])
    v ['"'] (by decide) hv (Or.inr rfl)]
  rw [subUrl_id_parts signatureChars (by decide) (by decide) (('"' :: webwxTicketChars) ++ ['"', ':', '"'])
    v ['"'] (by decide) hv (Or.inr rfl)]
  rw [subJson_id_parts passTicketChars (by decide) (by decide) (('"' :: webwxTicketChars) ++ ['"', ':', '"'])
    v ['"'] (by decide) hv (Or.inr rfl)]
  rw [← hsh, subJson_match_plain webwxTicketChars v (by decide) hv]
  decide

lemma jsonRedact_skey (v : List Char) (hv : ∀ c ∈ v, isDigitC c = true) :
    sanitizeText true ('"' :: (skeyChars ++ ('"' :: ':' :: '"' :: (v ++ ['"']))))
      = '"' :: (skeyChars ++ ('"' :: ':' :: '"' :: ('*' :: '*' :: '*' :: '"' :: []))) := by
  have hsh : '"' :: (skeyChars ++ ('"' :: ':' :: '"' :: (v ++ ['"'])))
      = (('"' :: skeyChars) ++ ['"', ':', '"']) ++ (v ++ ['"']) := by simp
  rw [sanitizeText_unfold, hsh]
  rw [subUrl_id_parts passTicketChars (by decide) (by decide) (('"' :: skeyChars) ++ ['"', ':', '"'])
    v ['"'] (by decide) hv (Or.inr rfl)]
  rw [subUrl_id_parts webwxTicketChars (by decide) (by decide) (('"' :: skeyChars) ++ ['"', ':', '"'])
    v ['"'] (by decide) hv (Or.inr rfl)]
  rw [subUrl_id_parts skeyChars (by decide) (by decide) (('"' :: skeyChars) ++ ['"', ':', '"'])
    v ['"'] (by decide) hv (Or.inr rfl)]
  rw [subUrl_id_parts sidChars (by decide) (by decide) (('"' :: skeyChars) ++ ['"', ':', '"'])
    v ['"'] (by decide) hv (Or.inr rfl)]
  rw [subUrl_id_parts wxsidChars (by decide) (by decide) (('"' :: skeyChars) ++ ['"', ':', '"'])
    v ['"'] (by decide) hv (Or.inr rfl)]
  rw [subUrl_id_parts deviceidChars (by decide) (by decide) (('"' :: skeyChars) ++ ['"', ':', '"'])
    v ['"'] (by decide) hv (Or.inr rfl)]
  rw [subUrl_id_parts uinChars (by decide) (by decide) (('"' :: skeyChars) ++ ['"', ':', '"'])
    v ['"'] (by decide) hv (Or.inr rfl)]
  rw [subUrl_id_parts aeskeyChars (by decide) (by decide) (('"' :: skeyChars) ++ ['"', ':', '"'])
    v ['"'] (by decide) hv (Or.inr rfl)]
  rw [subUrl_id_parts signatureChars (by decide) (by decide) (('"' :: skeyChars) ++ ['"', ':', '"'])
    v ['"'] (by decide) hv (Or.inr rfl)]
  rw [subJson_id_parts passTicketChars (by decide) (by decide) (('"' :: skeyChars) ++ ['"', ':', '"'])
    v ['"'] (by decide) hv (Or.inr rfl)]
  rw [subJson_id_parts webwxTicketChars (by decide) (by decide) (('"' :: skeyChars) ++ ['"', ':', '"'])
    v ['"'] (by decide) hv (Or.inr rfl)]
  rw [← hsh, subJson_match_plain skeyChars v (by decide) hv]
  decide

lemma jsonRedact_sid (v : List Char) (hv : ∀ c ∈ v, isDigitC c = true) :
    sanitizeText true ('"' :: (sidChars ++ ('"' :: ':' :: '"' :: (v ++ ['"']))))
      = '"' :: (sidChars ++ ('"' :: ':' :: '"' :: ('*' :: '*' :: '*' :: '"' :: []))) := by
  have hsh : '"' :: (sidChars ++ ('"' :: ':' :: '"' :: (v ++ ['"'])))
      = (('"' :: sidChars) ++ ['"', ':', '"']) ++ (v ++ ['"']) := by simp
  rw [sanitizeText_unfold, hsh]
  rw [subUrl_id_parts passTicketChars (by decide) (by decide) (('"' :: sidChars) ++ ['"', ':', '"'])
    v ['"'] (by decide) hv (Or.inr rfl)]
  rw [subUrl_id_parts webwxTicketChars (by decide) (by decide) (('"' :: sidChars) ++ ['"', ':', '"'])
    v ['"'] (by decide) hv (Or.inr rfl)]
  rw [subUrl_id_parts skeyChars (by decide) (by decide) (('"' :: sidChars) ++ ['"', ':', '"'])
    v ['"'] (by decide) hv (Or.inr rfl)]
  rw [subUrl_id_parts sidChars (by decide) (by decide) (('"' :: sidChars) ++ ['"', ':', '"'])
    v ['"'] (by decide) hv (Or.inr rfl)]
  rw [subUrl_id_parts wxsidChars (by decide) (by decide) (('"' :: sidChars) ++ ['"', ':', '"'])
    v ['"'] (by decide) hv (Or.inr rfl)]
  rw [subUrl_id_parts deviceidChars (by decide) (by decide) (('"' :: sidChars) ++ ['"', ':', '"'])
    v ['"'] (by decide) hv (Or.inr rfl)]
  rw [subUrl_id_parts uinChars (by decide) (by decide) (('"' :: sidChars) ++ ['"', ':', '"'])
    v ['"'] (by decide) hv (Or.inr rfl)]
  rw [subUrl_id_parts aeskeyChars (by decide) (by decide) (('"' :: sidChars) ++ ['"', ':', '"'])
    v ['"'] (by decide) hv (Or.inr rfl)]
  rw [subUrl_id_parts signatureChars (by decide) (by decide) (('"' :: sidChars) ++ ['"', ':', '"'])
    v ['"'] (by decide) hv (Or.inr rfl)]
  rw [subJson_id_parts passTicketChars (by decide) (by decide) (('"' :: sidChars) ++ ['"', ':', '"'])
    v ['"'] (by decide) hv (Or.inr rfl)]
  rw [subJson_id_parts webwxTicketChars (by decide) (by decide) (('"' :: sidChars) ++ ['"', ':', '"'])
    v ['"'] (by decide) hv (Or.inr rfl)]
  rw [subJson_id_parts skeyChars (by decide) (by decide) (('"' :: sidChars) ++ ['"', ':', '"'])
    v ['"'] (by decide) hv (Or.inr rfl)]
  rw [← hsh, subJson_match_plain sidChars v (by decide) hv]
  decide

lemma jsonRedact_deviceid (v : List Char) (hv : ∀ c ∈ v, isDigitC c = true) :
    sanitizeText true ('"' :: (deviceidChars ++ ('"' :: ':' :: '"' :: (v ++ ['"']))))
      = '"' :: (deviceidChars ++ ('"' :: ':' :: '"' :: ('*' :: '*' :: '*' :: '"' :: []))) := by
  have hsh : '"' :: (deviceidChars ++ ('"' :: ':' :: '"' :: (v ++ ['"'])))
      = (('"' :: deviceidChars) ++ ['"', ':', '"']) ++ (v ++ ['"']) := by simp
  rw [sanitizeText_unfold, hsh]
  rw [subUrl_id_parts passTicketChars (by decide) (by decide) (('"' :: deviceidChars) ++ ['"', ':', '"'])
    v ['"'] (by decide) hv (Or.inr rfl)]
  rw [subUrl_id_parts webwxTicketChars (by decide) (by decide) (('"' :: deviceidChars) ++ ['"', ':', '"'])
    v ['"'] (by decide) hv (Or.inr rfl)]
  rw [subUrl_id_parts skeyChars (by decide) (by decide) (('"' :: deviceidChars) ++ ['"', ':', '"'])
    v ['"'] (by decide) hv (Or.inr rfl)]
  rw [subUrl_id_parts sidChars (by decide) (by decide) (('"' :: deviceidChars) ++ ['"', ':', '"'])
    v ['"'] (by decide) hv (Or.inr rfl)]
  rw [subUrl_id_parts wxsidChars (by decide) (by decide) (('"' :: deviceidChars) ++ ['"', ':', '"'])
    v ['"'] (by decide) hv (Or.inr rfl)]
  rw [subUrl_id_parts deviceidChars (by decide) (by decide) (('"' :: deviceidChars) ++ ['"', ':', '"'])
    v ['"'] (by decide) hv (Or.inr rfl)]
  rw [subUrl_id_parts uinChars (by decide) (by decide) (('"' :: deviceidChars) ++ ['"', ':', '"'])
    v ['"'] (by decide) hv (Or.inr rfl)]
  rw [subUrl_id_parts aeskeyChars (by decide) (by decide) (('"' :: deviceidChars) ++ ['"', ':', '"'])
    v ['"'] (by decide) hv (Or.inr rfl)]
  rw [subUrl_id_parts signatureChars (by decide) (by decide) (('"' :: deviceidChars) ++ ['"', ':', '"'])
    v ['"'] (by decide) hv (Or.inr rfl)]
  rw [subJson_id_parts passTicketChars (by decide) (by decide) (('"' :: deviceidChars) ++ ['"', ':', '"'])
    v ['"'] (by decide) hv (Or.inr rfl)]
  rw [subJson_id_parts webwxTicketChars (by decide) (by decide) (('"' :: deviceidChars) ++ ['"', ':', '"'])
    v ['"'] (by decide) hv (Or.inr rfl)]
  rw [subJson_id_parts skeyChars (by decide) (by decide) (('"' :: deviceidChars) ++ ['"', ':', '"'])
    v ['"'] (by decide) hv (Or.inr rfl)]
  rw [subJson_id_parts sidChars (by decide) (by decide) (('"' :: deviceidChars) ++ ['"', ':', '"'])
    v ['"'] (by decide) hv (Or.inr rfl)]
  rw [← hsh, subJson_match_plain deviceidChars v (by decide) hv]
  decide

lemma jsonRedact_signature (v : List Char) (hv : ∀ c ∈ v, isDigitC c = true) :
    sanitizeText true ('"' :: (signatureChars ++ ('"' :: ':' :: '"' :: (v ++ ['"']))))
      = '"' :: (signatureChars ++ ('"' :: ':' :: '"' :: ('*' :: '*' :: '*' :: '"' :: []))) := by
  have hsh : '"' :: (signatureChars ++ ('"' :: ':' :: '"' :: (v ++ ['"'])))
      = (('"' :: signatureChars) ++ ['"', ':', '"']) ++ (v ++ ['"']) := by simp
  rw [sanitizeText_unfold, hsh]
  rw [subUrl_id_parts passTicketChars (by decide) (by decide) (('"' :: signatureChars) ++ ['"', ':', '"'])
    v ['"'] (by decide) hv (Or.inr rfl)]
  rw [subUrl_id_parts webwxTicketChars (by decide) (by decide) (('"' :: signatureChars) ++ ['"', ':', '"'])
    v ['"'] (by decide) hv (Or.inr rfl)]
  rw [subUrl_id_parts skeyChars (by decide) (by decide) (('"' :: signatureChars) ++ ['"', ':', '"'])
    v ['"'] (by decide) hv (Or.inr rfl)]
  rw [subUrl_id_parts sidChars (by decide) (by decide) (('"' :: signatureChars) ++ ['"', ':', '"'])
    v ['"'] (by decide) hv (Or.inr rfl)]
  rw [subUrl_id_parts wxsidChars (by decide) (by decide) (('"' :: signatureChars) ++ ['"', ':', '"'])
    v ['"'] (by decide) hv (Or.inr rfl)]
  rw [subUrl_id_parts deviceidChars (by decide) (by decide) (('"' :: signatureChars) ++ ['"', ':', '"'])
    v ['"'] (by decide) hv (Or.inr rfl)]
  rw [subUrl_id_parts uinChars (by decide) (by decide) (('"' :: signatureChars) ++ ['"', ':', '"'])
    v ['"'] (by decide) hv (Or.inr rfl)]
  rw [subUrl_id_parts aeskeyChars (by decide) (by decide) (('"' :: signatureChars) ++ ['"', ':', '"'])
    v ['"'] (by decide) hv (Or.inr rfl)]
  rw [subUrl_id_parts signatureChars (by decide) (by decide) (('"' :: signatureChars) ++ ['"', ':', '"'])
    v ['"'] (by decide) hv (Or.inr rfl)]
  rw [subJson_id_parts passTicketChars (by decide) (by decide) (('"' :: signatureChars) ++ ['"', ':', '"'])
    v ['"'] (by decide) hv (Or.inr rfl)]
  rw [subJson_id_parts webwxTicketChars (by decide) (by decide) (('"' :: signatureChars) ++ ['"', ':', '"'])
    v ['"'] (by decide) hv (Or.inr rfl)]
  rw [subJson_id_parts skeyChars (by decide) (by decide) (('"' :: signatureChars) ++ ['"', ':', '"'])
    v ['"'] (by decide) hv (Or.inr rfl)]
  rw [subJson_id_parts sidChars (by decide) (by decide) (('"' :: signatureChars) ++ ['"', ':', '"'])
    v ['"'] (by decide) hv (Or.inr rfl)]
  rw [subJson_id_parts deviceidChars (by decide) (by decide) (('"' :: signatureChars) ++ ['"', ':', '"'])
    v ['"'] (by decide) hv (Or.inr rfl)]
  rw [← hsh, subJson_match_plain signatureChars v (by decide) hv]
  decide

lemma jsonRedact_aeskey (v : List Char) (hv : ∀ c ∈ v, isDigitC c = true) :
    sanitizeText true ('"' :: (aeskeyChars ++ ('"' :: ':' :: '"' :: (v ++ ['"']))))
      = '"' :: (aeskeyChars ++ ('"' :: ':' :: '"' :: ('*' :: '*' :: '*' :: '"' :: []))) := by
  have hsh : '"' :: (aeskeyChars ++ ('"' :: ':' :: '"' :: (v ++ ['"'])))
      = (('"' :: aeskeyChars) ++ ['"', ':', '"']) ++ (v ++ ['"']) := by simp
  rw [sanitizeText_unfold, hsh]
  rw [subUrl_id_parts passTicketChars (by decide) (by decide) (('"' :: aeskeyChars) ++ ['"', ':', '"'])
    v ['"'] (by decide) hv (Or.inr rfl)]
  rw [subUrl_id_parts webwxTicketChars (by decide) (by decide) (('"' :: aeskeyChars) ++ ['"', ':', '"'])
    v ['"'] (by decide) hv (Or.inr rfl)]
  rw [subUrl_id_parts skeyChars (by decide) (by decide) (('"' :: aeskeyChars) ++ ['"', ':', '"'])
    v ['"'] (by decide) hv (Or.inr rfl)]
  rw [subUrl_id_parts sidChars (by decide) (by decide) (('"' :: aeskeyChars) ++ ['"', ':', '"'])
    v ['"'] (by decide) hv (Or.inr rfl)]
  rw [subUrl_id_parts wxsidChars (by decide) (by decide) (('"' :: aeskeyChars) ++ ['"', ':', '"'])
    v ['"'] (by decide) hv (Or.inr rfl)]
  rw [subUrl_id_parts deviceidChars (by decide) (by decide) (('"' :: aeskeyChars) ++ ['"', ':', '"'])
    v ['"'] (by decide) hv (Or.inr rfl)]
  rw [subUrl_id_parts uinChars (by decide) (by decide) (('"' :: aeskeyChars) ++ ['"', ':', '"'])
    v ['"'] (by decide) hv (Or.inr rfl)]
  rw [subUrl_id_parts aeskeyChars (by decide) (by decide) (('"' :: aeskeyChars) ++ ['"', ':', '"'])
    v ['"'] (by decide) hv (Or.inr rfl)]
  rw [subUrl_id_parts signatureChars (by decide) (by decide) (('"' :: aeskeyChars) ++ ['"', ':', '"'])
    v ['"'] (by decide) hv (Or.inr rfl)]
  rw [subJson_id_parts passTicketChars (by decide) (by decide) (('"' :: aeskeyChars) ++ ['"', ':', '"'])
    v ['"'] (by decide) hv (Or.inr rfl)]
  rw [subJson_id_parts webwxTicketChars (by decide) (by decide) (('"' :: aeskeyChars) ++ ['"', ':', '"'])
    v ['"'] (by decide) hv (Or.inr rfl)]
  rw [subJson_id_parts skeyChars (by decide) (by decide) (('"' :: aeskeyChars) ++ ['"', ':', '"'])
    v ['"'] (by decide) hv (Or.inr rfl)]
  rw [subJson_id_parts sidChars (by decide) (by decide) (('"' :: aeskeyChars) ++ ['"', ':', '"'])
    v ['"'] (by decide) hv (Or.inr rfl)]
  rw [subJson_id_parts deviceidChars (by decide) (by decide) (('"' :: aeskeyChars) ++ ['"', ':', '"'])
    v ['"'] (by decide) hv (Or.inr rfl)]
  rw [subJson_id_parts signatureChars (by decide) (by decide) (('"' :: aeskeyChars) ++ ['"', ':', '"'])
    v ['"'] (by decide) hv (Or.inr rfl)]
  rw [← hsh, subJson_match_plain aeskeyChars v (by decide) hv]

/-- Any of the nine URL-style pattern names, followed by `=` and a non-empty
digit value, is redacted to `***` by the full sanitize pass. -/
lemma urlRedact_any (n : List Char) (hn : n ∈ urlNames) (v : List Char)
    (hv : ∀ c ∈ v, isDigitC c = true) (hvne : v ≠ []) :
    sanitizeText true (n ++ ('=' :: v)) = n ++ ('=' :: star3) := by
  simp only [urlNames, List.mem_cons, List.not_mem_nil, or_false] at hn
  rcases hn with rfl | rfl | rfl | rfl | rfl | rfl | rfl | rfl | rfl
  · exact urlRedact_pass v hv hvne
  · exact urlRedact_webwx v hv hvne
  · exact urlRedact_skey v hv hvne
  · exact urlRedact_sid v hv hvne
  · exact urlRedact_wxsid v hv hvne
  · exact urlRedact_deviceid v hv hvne
  · exact urlRedact_uin v hv hvne
  · exact urlRedact_aeskey v hv hvne
  · exact urlRedact_signature v hv hvne

/-- Any of the seven JSON-style pattern names, in `"name":"value"` form with a
digit value, has its value redacted to `***` by the full sanitize pass. -/
lemma jsonRedact_any (n : List Char) (hn : n ∈ jsonNames) (v : List Char)
    (hv : ∀ c ∈ v, isDigitC c = true) :
    sanitizeText true ('"' :: (n ++ ('"' :: ':' :: '"' :: (v ++ ['"']))))
      = '"' :: (n ++ ('"' :: ':' :: '"' :: ('*' :: '*' :: '*' :: '"' :: []))) := by
  simp only [jsonNames, List.mem_cons, List.not_mem_nil, or_false] at hn
  rcases hn with rfl | rfl | rfl | rfl | rfl | rfl | rfl
  · exact jsonRedact_pass v hv
  · exact jsonRedact_webwx v hv
  · exact jsonRedact_skey v hv
  · exact jsonRedact_sid v hv
  · exact jsonRedact_deviceid v hv
  · exact jsonRedact_signature v hv
  · exact jsonRedact_aeskey v hv

/-- C4 (amended): with redaction enabled, the `cookie`, `set-cookie` and
`authorization` headers (compared lower-cased) are replaced by `***` in place;
each of the nine sensitive parameter names is redacted in URL-style
`name=value` occurrences (digit values), and each of the seven names that have
a JSON-style pattern — `pass_ticket`, `webwx_data_ticket`, `skey`, `sid`,
`deviceid`, `signature`, `aeskey`, i.e. all nine except `wxsid` and `uin` — is
redacted in `"name":"value"` occurrences.  Consequently two bodies that differ
only in such a redacted value produce identical sanitized text. -/
theorem trace_redaction_spec :
    (∀ (redact : Bool) (k v : List Char) (rest : List (List Char × List Char)),
        (k.map asciiLower = cookieChars ∨ k.map asciiLower = setCookieChars
          ∨ k.map asciiLower = authorizationChars) →
        sanitizeHeaders redact ((k, v) :: rest)
          = (k, star3) :: sanitizeHeaders redact rest)
    ∧ (∀ n ∈ urlNames, ∀ v : List Char,
        (∀ c ∈ v, isDigitC c = true) → v ≠ [] →
        sanitizeText true (n ++ ('=' :: v)) = n ++ ('=' :: star3))
    ∧ (∀ n ∈ jsonNames, ∀ v : List Char,
        (∀ c ∈ v, isDigitC c = true) →
        sanitizeText true ('"' :: (n ++ ('"' :: ':' :: '"' :: (v ++ ['"']))))
          = '"' :: (n ++ ('"' :: ':' :: '"' :: ('*' :: '*' :: '*' :: '"' :: []))))
    ∧ (∀ n ∈ urlNames, ∀ v₁ v₂ : List Char,
        (∀ c ∈ v₁, isDigitC c = true) → (∀ c ∈ v₂, isDigitC c = true) →
        v₁ ≠ [] → v₂ ≠ [] →
        sanitizeText true (n ++ ('=' :: v₁)) = sanitizeText true (n ++ ('=' :: v₂)))
    ∧ (∀ n ∈ jsonNames, ∀ v₁ v₂ : List Char,
        (∀ c ∈ v₁, isDigitC c = true) → (∀ c ∈ v₂, isDigitC c = true) →
        sanitizeText true ('"' :: (n ++ ('"' :: ':' :: '"' :: (v₁ ++ ['"']))))
          = sanitizeText true ('"' :: (n ++ ('"' :: ':' :: '"' :: (v₂ ++ ['"']))))) := by
  refine ⟨?_, ?_, ?_, ?_, ?_⟩
  · intro redact k v rest hkey
    simp only [sanitizeHeaders, List.map_cons, if_pos hkey]
  · intro n hn v hv hvne
    exact urlRedact_any n hn v hv hvne
  · intro n hn v hv
    exact jsonRedact_any n hn v hv
  · intro n hn v₁ v₂ hv₁ hv₂ hne₁ hne₂
    rw [urlRedact_any n hn v₁ hv₁ hne₁, urlRedact_any n hn v₂ hv₂ hne₂]
  · intro n hn v₁ v₂ hv₁ hv₂
    rw [jsonRedact_any n hn v₁ hv₁, jsonRedact_any n hn v₂ hv₂]

/-- Concrete instance of the amended redaction theorem: a `Cookie` header
becomes `***`, `skey=77` becomes `skey=***` and `"skey":"77"` becomes
`"skey":"***"`, and the sanitized text of `skey=77` equals that of
`skey=123`. -/
theorem trace_redaction_spec_witness :
    sanitizeHeaders true ((['C', 'o', 'o', 'k', 'i', 'e'], ['s', 'e', 'c']) :: [])
      = (['C', 'o', 'o', 'k', 'i', 'e'], star3) :: []
    ∧ sanitizeText true (skeyChars ++ ('=' :: ['7', '7']))
      = skeyChars ++ ('=' :: star3)
    ∧ sanitizeText true ('"' :: (skeyChars ++ ('"' :: ':' :: '"' :: (['7', '7'] ++ ['"']))))
      = '"' :: (skeyChars ++ ('"' :: ':' :: '"' :: ('*' :: '*' :: '*' :: '"' :: [])))
    ∧ sanitizeText true (skeyChars ++ ('=' :: ['7', '7']))
      = sanitizeText true (skeyChars ++ ('=' :: ['1', '2', '3'])) := by
  refine ⟨?_, ?_, ?_, ?_⟩
  · have h := trace_redaction_spec.1 true ['C', 'o', 'o', 'k', 'i', 'e']
      ['s', 'e', 'c'] [] (by decide)
    simpa [sanitizeHeaders] using h
  · exact trace_redaction_spec.2.1 skeyChars (by decide) ['7', '7']
      (by decide) (by decide)
  · exact trace_redaction_spec.2.2.1 skeyChars (by decide) ['7', '7'] (by decide)
  · exact trace_redaction_spec.2.2.2.1 skeyChars (by decide) ['7', '7'] ['1', '2', '3']
      (by decide) (by decide) (by decide) (by decide)
